import Mathlib

/-!
Verification of the async-tiff core against its natural-language specification.

The Rust sources are shallowly embedded: machine integers become `Nat` with
explicit `% 2 ^ w` where wrap-around matters, in-place byte-buffer loops become
structural recursions over `List Nat` (each element one byte, `< 256`),
fallible code returns `Except`, and a Rust `panic!` / `expect` / `unreachable!`
is a distinguished error constructor.  Async functions are pure: every
`fetch(range)` is a slice of the file, and where a claim is about *which*
ranges are fetched the cursor carries an explicit log of ranges.
-/

namespace AsyncTiff

/-- Endianness of a TIFF file (src/reader.rs `enum Endianness`). -/
inductive Endianness where
  | littleEndian
  | bigEndian
deriving DecidableEq, Repr

/-- `bytes.slice(start..stop)` on a byte buffer. -/
def listSlice (l : List Nat) (start stop : Nat) : List Nat :=
  (l.drop start).take (stop - start)

/-- Little-endian value of a byte list: `from_le_bytes`. -/
def leValue : List Nat → Nat
  | [] => 0
  | b :: rest => b + 256 * leValue rest

/-- Big-endian value of a byte list: `from_be_bytes`. -/
def beValue (l : List Nat) : Nat :=
  leValue l.reverse

/-- Little-endian bytes of a value, `width` bytes: `to_le_bytes`. -/
def leBytes : Nat → Nat → List Nat
  | 0, _ => []
  | width + 1, n => n % 256 :: leBytes width (n / 256)

/-- Big-endian bytes of a value, `width` bytes: `to_be_bytes`. -/
def beBytes (width n : Nat) : List Nat :=
  (leBytes width n).reverse

/-- `from_ne_bytes` relative to the (parameterised) host endianness. -/
def neValue (host : Endianness) (l : List Nat) : Nat :=
  match host with
  | .littleEndian => leValue l
  | .bigEndian => beValue l

/-- `to_ne_bytes` relative to the (parameterised) host endianness. -/
def neBytes (host : Endianness) (width n : Nat) : List Nat :=
  match host with
  | .littleEndian => leBytes width n
  | .bigEndian => beBytes width n

/-- Value of a byte list under a *file* endianness (`EndianAwareReader` readers). -/
def endValue (e : Endianness) (l : List Nat) : Nat :=
  match e with
  | .littleEndian => leValue l
  | .bigEndian => beValue l

/-! ## C10: the metadata cursor (src/metadata/fetch.rs `MetadataCursor`)

`MetadataCursor::read` computes the range, *then* advances `self.offset`
by `length`, and only then awaits the fetch.  The fetch itself is abstracted
as a function from a half-open range to a fallible byte blob, exactly the
`MetadataFetch` trait. -/

/-- The state of `MetadataCursor` (the fetch source and endianness are passed
separately so that the state is pure data). -/
structure MetadataCursor where
  offset : Nat
  endianness : Endianness
deriving DecidableEq, Repr

/-- `MetadataCursor::seek`. -/
def MetadataCursor.seek (c : MetadataCursor) (offset : Nat) : MetadataCursor :=
  { c with offset := offset }

/-- `MetadataCursor::advance`. -/
def MetadataCursor.advance (c : MetadataCursor) (amount : Nat) : MetadataCursor :=
  { c with offset := c.offset + amount }

/-- `MetadataCursor::read(length)`: builds `range = offset..offset+length`,
advances the offset by `length`, then resolves the fetch.  The returned pair is
(the cursor after the call, the fetch outcome). -/
def MetadataCursor.read (fetch : Nat → Nat → Except String (List Nat))
    (c : MetadataCursor) (length : Nat) :
    MetadataCursor × Except String (List Nat) :=
  let rangeStart := c.offset
  let rangeStop := c.offset + length
  let c' := { c with offset := c.offset + length }
  (c', fetch rangeStart rangeStop)

/-! ## C8: the prefetch buffer (src/metadata/fetch.rs `PrefetchBuffer`)

`PrefetchBuffer::fetch` serves a request from the buffered head of the file
only when `range.start < buffer.len()` *and* `range.end < buffer.len()`
(both strict); otherwise it delegates to the wrapped inner fetch.  The inner
source is a parameter, so "served from the buffer" is expressible as
"the result does not depend on the inner source". -/

def PrefetchBuffer.fetch (inner : Nat → Nat → Except String (List Nat))
    (buffer : List Nat) (rangeStart rangeStop : Nat) :
    Except String (List Nat) :=
  if rangeStart < buffer.length then
    if rangeStop < buffer.length then
      .ok (listSlice buffer rangeStart rangeStop)
    else
      inner rangeStart rangeStop
  else
    inner rangeStart rangeStop

/-! ## Tag values

`src/tiff/ifd.rs` and `src/tiff/tags.rs` (the vendored tiff-crate data model)
are not present under `src/`; only their consumers are.

Modelled from the spec: the `Value` tagged sum of §3, with `f32`/`f64`
payloads kept as raw bit patterns (no float arithmetic is performed on them
anywhere in the modelled code). -/
inductive Value where
  | byte (v : Nat)
  | signedByte (v : Int)
  | short (v : Nat)
  | signedShort (v : Int)
  | unsigned (v : Nat)
  | signed (v : Int)
  | unsignedBig (v : Nat)
  | signedBig (v : Int)
  | float (bits : Nat)
  | double (bits : Nat)
  | rational (n d : Nat)
  | srational (n d : Int)
  | ascii (s : String)
  | ifdOffset (v : Nat)
  | ifdBig (v : Nat)
  | list (l : List Value)

/-- A TIFF tag is an (open) 16-bit identifier; `Tag::from_u16_exhaustive`
preserves unknown codes, so the numeric code is the faithful representation. -/
abbrev Tag := Nat

/-- Modelled from the spec: subset of `TiffFormatError` (src/tiff/error.rs,
which is present) relevant to the claims. -/
inductive TiffFormatError where
  | tiffSignatureNotFound
  | tiffSignatureInvalid
  | invalidTag
  | invalidTagValueType (tag : Tag)
  | requiredTagNotFound (tag : Tag)
  | byteExpected (v : Value)
  | shortExpected (v : Value)
  | unsignedIntegerExpected (v : Value)
  | cycleInOffsets
  | formatMsg (msg : String)

/-- `TiffError` (src/tiff/error.rs). -/
inductive TiffError where
  | formatError (e : TiffFormatError)
  | unsupportedError (msg : String)
  | intSizeError

/-- `AsyncTiffError` (src/error.rs, plus the `TileIndexError` variant used by
src/tile.rs and src/predictor.rs). -/
inductive AsyncTiffError where
  | endOfFile (expected got : Nat)
  | general (msg : String)
  | ioError (msg : String)
  | internalTiffError (e : TiffError)
  | tileIndexError (index bound : Nat)

/-- The outcome of fallible Rust code: a returned `Err`, or a `panic!` /
`expect` / `unreachable!` / out-of-bounds index (which in Rust aborts instead
of returning). -/
inductive Fail where
  | error (e : AsyncTiffError)
  | panic (msg : String)

/-- Shorthand for returning a `TiffError::FormatError`. -/
def tiffFormat {α : Type} (e : TiffFormatError) : Except Fail α :=
  .error (.error (.internalTiffError (.formatError e)))

/-- `Option::expect`: unwraps or panics with the given message. -/
def expectSome {α : Type} : Option α → String → Except Fail α
  | some a, _ => .ok a
  | none, msg => .error (.panic msg)

/-- Indexing `l[i]` on a Rust slice: panics when out of bounds. -/
def indexPanic {α : Type} (l : List α) (i : Nat) : Except Fail α :=
  match l.get? i with
  | some v => .ok v
  | none => .error (.panic "index out of bounds")

/-! ### Value conversions

Modelled from the spec (§3, §4.6): the `into_*` conversions of the vendored
`tiff::ifd::Value` (file absent from src/).  Scalar variants convert when they
fit, lists convert elementwise, anything else is a type-constraint
`FormatError(Invalid*)`. -/

/-- `Value::into_u16`. -/
def Value.into_u16 : Value → Except Fail Nat
  | .short v => .ok v
  | .unsigned v => if v < 2 ^ 16 then .ok v else tiffFormat (.formatMsg "u16 overflow")
  | .unsignedBig v => if v < 2 ^ 16 then .ok v else tiffFormat (.formatMsg "u16 overflow")
  | v => tiffFormat (.shortExpected v)

/-- `Value::into_u32`. -/
def Value.into_u32 : Value → Except Fail Nat
  | .short v => .ok v
  | .unsigned v => .ok v
  | .ifdOffset v => .ok v
  | .unsignedBig v => if v < 2 ^ 32 then .ok v else tiffFormat (.formatMsg "u32 overflow")
  | v => tiffFormat (.unsignedIntegerExpected v)

/-- `Value::into_u64` (element conversion behind `into_u64_vec`). -/
def Value.into_u64 : Value → Except Fail Nat
  | .short v => .ok v
  | .unsigned v => .ok v
  | .unsignedBig v => .ok v
  | .ifdOffset v => .ok v
  | .ifdBig v => .ok v
  | v => tiffFormat (.unsignedIntegerExpected v)

/-- `Value::into_u8` (element conversion behind `into_u8_vec`). -/
def Value.into_u8 : Value → Except Fail Nat
  | .byte v => .ok v
  | v => tiffFormat (.byteExpected v)

/-- `Value::into_f64` (element conversion behind `into_f64_vec`); the result
is the raw f64 bit pattern. -/
def Value.into_f64 : Value → Except Fail Nat
  | .double bits => .ok bits
  | _ => tiffFormat (.formatMsg "expected f64")

/-- `Value::into_string`. -/
def Value.into_string : Value → Except Fail String
  | .ascii s => .ok s
  | _ => tiffFormat (.formatMsg "expected string")

/-- `Value::into_u16_vec`. -/
def Value.into_u16_vec : Value → Except Fail (List Nat)
  | .list l => l.mapM Value.into_u16
  | .short v => .ok [v]
  | v => tiffFormat (.shortExpected v)

/-- `Value::into_u64_vec`. -/
def Value.into_u64_vec : Value → Except Fail (List Nat)
  | .list l => l.mapM Value.into_u64
  | .short v => .ok [v]
  | .unsigned v => .ok [v]
  | .unsignedBig v => .ok [v]
  | .ifdOffset v => .ok [v]
  | .ifdBig v => .ok [v]
  | v => tiffFormat (.unsignedIntegerExpected v)

/-- `Value::into_u8_vec`. -/
def Value.into_u8_vec : Value → Except Fail (List Nat)
  | .list l => l.mapM Value.into_u8
  | .byte v => .ok [v]
  | v => tiffFormat (.byteExpected v)

/-- `Value::into_f64_vec` (list of f64 bit patterns). -/
def Value.into_f64_vec : Value → Except Fail (List Nat)
  | .list l => l.mapM Value.into_f64
  | .double bits => .ok [bits]
  | _ => tiffFormat (.formatMsg "expected f64 vec")

/-! ### Tag enumerations

Modelled from the spec: the enums of the vendored `tiff::tags` (file absent
from src/). -/

/-- `PhotometricInterpretation::from_u16` domain per TIFF 6.0. -/
inductive PhotometricInterpretation where
  | whiteIsZero
  | blackIsZero
  | rgb
  | rgbPalette
  | transparencyMask
  | cmyk
  | ycbcr
  | cielab8
deriving DecidableEq, Repr

/-- `PhotometricInterpretation::from_u16`. -/
def PhotometricInterpretation.from_u16 : Nat → Option PhotometricInterpretation
  | 0 => some .whiteIsZero
  | 1 => some .blackIsZero
  | 2 => some .rgb
  | 3 => some .rgbPalette
  | 4 => some .transparencyMask
  | 5 => some .cmyk
  | 6 => some .ycbcr
  | 8 => some .cielab8
  | _ => none

/-- `CompressionMethod`: `from_u16_exhaustive` preserves unknown codes, so the
numeric tag value is the faithful representation (None = 1, LZW = 5,
ModernJPEG = 7, Deflate = 8 / 32946, per spec §4.9). -/
abbrev CompressionMethod := Nat

/-- `PlanarConfiguration`. -/
inductive PlanarConfiguration where
  | chunky
  | planar
deriving DecidableEq, Repr

/-- `PlanarConfiguration::from_u16`. -/
def PlanarConfiguration.from_u16 : Nat → Option PlanarConfiguration
  | 1 => some .chunky
  | 2 => some .planar
  | _ => none

/-- `Predictor`; `unmodified` is the source's `Predictor::None`. -/
inductive Predictor where
  | unmodified
  | horizontal
  | floatingPoint
deriving DecidableEq, Repr

/-- `Predictor::from_u16`. -/
def Predictor.from_u16 : Nat → Option Predictor
  | 1 => some .unmodified
  | 2 => some .horizontal
  | 3 => some .floatingPoint
  | _ => none

/-- `SampleFormat`: `from_u16_exhaustive` keeps unknown codes. -/
inductive SampleFormat where
  | uint
  | int
  | ieeefp
  | void
  | unknown (v : Nat)
deriving DecidableEq, Repr

/-- `SampleFormat::from_u16_exhaustive`. -/
def SampleFormat.from_u16_exhaustive : Nat → SampleFormat
  | 1 => .uint
  | 2 => .int
  | 3 => .ieeefp
  | 4 => .void
  | v => .unknown v

/-- `ResolutionUnit::from_u16` (None = 1, Inch = 2, Centimeter = 3), kept
numeric. -/
def ResolutionUnit.from_u16 (v : Nat) : Option Nat :=
  if 1 ≤ v ∧ v ≤ 3 then some v else none

/-- `GeoKeyTag::try_from_primitive` (src/geo_key_directory.rs): the recognized
key ids are 1024–1026, 2048–2061, 3072–3095 and 4096–4099; anything else is
`Err` (surfaced via `expect` by the callers). -/
def GeoKeyTag.try_from_primitive (v : Nat) : Option Nat :=
  if (1024 ≤ v ∧ v ≤ 1026) ∨ (2048 ≤ v ∧ v ≤ 2061) ∨ (3072 ≤ v ∧ v ≤ 3095) ∨
      (4096 ≤ v ∧ v ≤ 4099) then
    some v
  else
    none

/-- `GeoKeyDirectory` (src/geo_key_directory.rs).  The per-field extraction of
`GeoKeyDirectory::from_tags` (≈40 optional fields) is elided: the directory is
modelled as the parsed key/value pairs.  No claim depends on the per-field
conversions. -/
structure GeoKeyDirectory where
  tags : List (Nat × Value)

/-- `GeoKeyDirectory::from_tags`, with field extraction elided (see
`GeoKeyDirectory`). -/
def GeoKeyDirectory.from_tags (tags : List (Nat × Value)) :
    Except Fail GeoKeyDirectory :=
  .ok ⟨tags⟩

/-! ## ImageFileDirectory construction (src/ifd.rs `ImageFileDirectory::from_tags`)

The `HashMap::drain` iteration is modelled as a left fold over an association
list (iteration order is unspecified in the source; the claims do not involve
duplicate tags). -/

/-- The mutable locals of `from_tags` that the per-tag `match` fills in. -/
structure TagFold where
  new_subfile_type : Option Nat := none
  image_width : Option Nat := none
  image_height : Option Nat := none
  bits_per_sample : Option (List Nat) := none
  compression : Option CompressionMethod := none
  photometric_interpretation : Option PhotometricInterpretation := none
  document_name : Option String := none
  image_description : Option String := none
  strip_offsets : Option (List Nat) := none
  orientation : Option Nat := none
  samples_per_pixel : Option Nat := none
  rows_per_strip : Option Nat := none
  strip_byte_counts : Option (List Nat) := none
  min_sample_value : Option (List Nat) := none
  max_sample_value : Option (List Nat) := none
  x_resolution : Option (Nat × Nat) := none
  y_resolution : Option (Nat × Nat) := none
  planar_configuration : Option PlanarConfiguration := none
  resolution_unit : Option Nat := none
  software : Option String := none
  date_time : Option String := none
  artist : Option String := none
  host_computer : Option String := none
  predictor : Option Predictor := none
  color_map : Option (List Nat) := none
  tile_width : Option Nat := none
  tile_height : Option Nat := none
  tile_offsets : Option (List Nat) := none
  tile_byte_counts : Option (List Nat) := none
  extra_samples : Option (List Nat) := none
  sample_format : Option (List SampleFormat) := none
  jpeg_tables : Option (List Nat) := none
  copyright : Option String := none
  geo_key_directory_data : Option (List Nat) := none
  model_pixel_scale : Option (List Nat) := none
  model_tiepoint : Option (List Nat) := none
  geo_ascii_params : Option String := none
  geo_double_params : Option (List Nat) := none
  other_tags : List (Tag × Value) := []

/-- One arm of the per-tag `match` in `from_tags` (the numeric literals are
the TIFF tag codes of the named `Tag` variants; `269` is `DOCUMENT_NAME`). -/
def foldTag (st : TagFold) (tag : Tag) (value : Value) : Except Fail TagFold :=
  match tag with
  | 254 => do pure { st with new_subfile_type := some (← value.into_u32) }
  | 256 => do pure { st with image_width := some (← value.into_u32) }
  | 257 => do pure { st with image_height := some (← value.into_u32) }
  | 258 => do pure { st with bits_per_sample := some (← value.into_u16_vec) }
  | 259 => do pure { st with compression := some (← value.into_u16) }
  | 262 => do
      pure { st with
        photometric_interpretation := PhotometricInterpretation.from_u16 (← value.into_u16) }
  | 270 => do pure { st with image_description := some (← value.into_string) }
  | 273 => do pure { st with strip_offsets := some (← value.into_u64_vec) }
  | 274 => do pure { st with orientation := some (← value.into_u16) }
  | 277 => do pure { st with samples_per_pixel := some (← value.into_u16) }
  | 278 => do pure { st with rows_per_strip := some (← value.into_u32) }
  | 279 => do pure { st with strip_byte_counts := some (← value.into_u64_vec) }
  | 280 => do pure { st with min_sample_value := some (← value.into_u16_vec) }
  | 281 => do pure { st with max_sample_value := some (← value.into_u16_vec) }
  | 282 =>
      match value with
      | .rational n d => pure { st with x_resolution := some (n, d) }
      | _ => .error (.panic "entered unreachable code: Expected rational type for XResolution.")
  | 283 =>
      match value with
      | .rational n d => pure { st with y_resolution := some (n, d) }
      | _ => .error (.panic "entered unreachable code: Expected rational type for YResolution.")
  | 284 => do
      pure { st with planar_configuration := PlanarConfiguration.from_u16 (← value.into_u16) }
  | 296 => do pure { st with resolution_unit := ResolutionUnit.from_u16 (← value.into_u16) }
  | 305 => do pure { st with software := some (← value.into_string) }
  | 306 => do pure { st with date_time := some (← value.into_string) }
  | 315 => do pure { st with artist := some (← value.into_string) }
  | 316 => do pure { st with host_computer := some (← value.into_string) }
  | 317 => do pure { st with predictor := Predictor.from_u16 (← value.into_u16) }
  | 320 => do pure { st with color_map := some (← value.into_u16_vec) }
  | 322 => do pure { st with tile_width := some (← value.into_u32) }
  | 323 => do pure { st with tile_height := some (← value.into_u32) }
  | 324 => do pure { st with tile_offsets := some (← value.into_u64_vec) }
  | 325 => do pure { st with tile_byte_counts := some (← value.into_u64_vec) }
  | 338 => do pure { st with extra_samples := some (← value.into_u16_vec) }
  | 339 => do
      let values ← value.into_u16_vec
      pure { st with sample_format := some (values.map SampleFormat.from_u16_exhaustive) }
  | 347 => do pure { st with jpeg_tables := some (← value.into_u8_vec) }
  | 33432 => do pure { st with copyright := some (← value.into_string) }
  | 34735 => do pure { st with geo_key_directory_data := some (← value.into_u16_vec) }
  | 33550 => do pure { st with model_pixel_scale := some (← value.into_f64_vec) }
  | 33922 => do pure { st with model_tiepoint := some (← value.into_f64_vec) }
  | 34737 => do pure { st with geo_ascii_params := some (← value.into_string) }
  | 34736 => do pure { st with geo_double_params := some (← value.into_f64_vec) }
  | 269 => do pure { st with document_name := some (← value.into_string) }
  | _ => pure { st with other_tags := st.other_tags ++ [(tag, value)] }

/-- The `tag_data.drain().try_for_each(...)` loop of `from_tags`. -/
def processTags (tag_data : List (Tag × Value)) : Except Fail TagFold :=
  tag_data.foldlM (fun st tv => foldTag st tv.1 tv.2) {}

/-- The fuelled worker behind `dataChunks`; the fuel is the list length, an
upper bound on the chunk count for every `k ≥ 1`. -/
def dataChunksGo (k : Nat) : Nat → List Nat → List (List Nat)
  | _, [] => []
  | 0, _ => []
  | fuel + 1, l => l.take k :: dataChunksGo k fuel (l.drop k)

/-- `data.chunks(k)`: splits into `k`-element chunks, the last possibly short
(`chunks(0)` panics in Rust and is never called; it is mapped to `[]`). -/
def dataChunks (k : Nat) (l : List Nat) : List (List Nat) :=
  if k = 0 then [] else dataChunksGo k l.length l

/-- `&geo_ascii_params[a..a + n]` with the trailing-`|` strip: Rust string
slicing panics when the range escapes the string. -/
def geoAsciiSlice (s : String) (off count : Nat) : Except Fail String :=
  if off + count ≤ s.data.length then
    let sub := (s.data.drop off).take count
    let sub := if sub.getLast? = some '|' then sub.dropLast else sub
    .ok ⟨sub⟩
  else
    .error (.panic "byte index out of bounds of string slice")

/-- `&geo_double_params[a..a + n]`: Rust slicing panics when out of range. -/
def geoDoubleSlice (l : List Nat) (off count : Nat) : Except Fail (List Nat) :=
  if off + count ≤ l.length then
    .ok ((l.drop off).take count)
  else
    .error (.panic "range end index out of bounds")

/-- One iteration of the `for _ in 0..number_of_keys` loop of the
GeoKeyDirectory block in `from_tags` (src/ifd.rs lines 379–430). -/
def geoKeyStep (geo_ascii_params : Option String) (geo_double_params : Option (List Nat))
    (tags : List (Nat × Value)) (chunk : List Nat) :
    Except Fail (List (Nat × Value)) := do
  let key_id ← indexPanic chunk 0
  let tag_name ← expectSome (GeoKeyTag.try_from_primitive key_id) "Unknown GeoKeyTag id: {key_id}"
  let tag_location ← indexPanic chunk 1
  let count ← indexPanic chunk 2
  let value_offset ← indexPanic chunk 3
  if tag_location = 0 then
    pure (tags ++ [(tag_name, Value.short value_offset)])
  else if tag_location = 34737 then
    -- Tag::GeoAsciiParamsTag
    let params ← expectSome geo_ascii_params "GeoAsciiParamsTag exists but geo_ascii_params does not."
    let s ← geoAsciiSlice params value_offset count
    pure (tags ++ [(tag_name, Value.ascii s)])
  else if tag_location = 34736 then
    -- Tag::GeoDoubleParamsTag
    let params ← expectSome geo_double_params "GeoDoubleParamsTag exists but geo_double_params does not."
    let value ←
      if count = 1 then do
        let bits ← indexPanic params value_offset
        pure (Value.double bits)
      else do
        let xs ← geoDoubleSlice params value_offset count
        pure (Value.list (xs.map Value.double))
    pure (tags ++ [(tag_name, value)])
  else
    -- no branch taken: the key is dropped
    pure tags

/-- The `for _ in 0..number_of_keys` loop: consumes one chunk per key,
panicking (`expect`) when the chunks run out. -/
def geoKeyLoop (geo_ascii_params : Option String) (geo_double_params : Option (List Nat)) :
    Nat → List (List Nat) → List (Nat × Value) → Except Fail (List (Nat × Value))
  | 0, _, tags => .ok tags
  | _ + 1, [], _ => .error (.panic "There should be a chunk for each key.")
  | n + 1, chunk :: rest, tags => do
      let tags ← geoKeyStep geo_ascii_params geo_double_params tags chunk
      geoKeyLoop geo_ascii_params geo_double_params n rest tags

/-- The GeoKeyDirectory block of `from_tags` (src/ifd.rs lines 363–432). -/
def parseGeoKeyDirectory (data : List Nat) (geo_ascii_params : Option String)
    (geo_double_params : Option (List Nat)) : Except Fail GeoKeyDirectory := do
  match dataChunks 4 data with
  | [] => .error (.panic "If the geo key directory exists, a header should exist.")
  | header :: rest => do
      let key_directory_version ← indexPanic header 0
      if key_directory_version ≠ 1 then
        .error (.panic "assertion failed: key_directory_version == 1")
      else do
        let key_revision ← indexPanic header 1
        if key_revision ≠ 1 then
          .error (.panic "assertion failed: key_revision == 1")
        else do
          let number_of_keys ← indexPanic header 3
          let tags ← geoKeyLoop geo_ascii_params geo_double_params number_of_keys rest []
          GeoKeyDirectory.from_tags tags

/-- `ImageFileDirectory` (src/ifd.rs).  `f64` fields derived from RATIONAL
values keep the (numerator, denominator) pair; `f64` lists keep bit patterns;
`Bytes` blobs are byte lists. -/
structure ImageFileDirectory where
  new_subfile_type : Option Nat
  image_width : Nat
  image_height : Nat
  bits_per_sample : List Nat
  compression : CompressionMethod
  photometric_interpretation : PhotometricInterpretation
  document_name : Option String
  image_description : Option String
  strip_offsets : Option (List Nat)
  orientation : Option Nat
  samples_per_pixel : Nat
  rows_per_strip : Option Nat
  strip_byte_counts : Option (List Nat)
  min_sample_value : Option (List Nat)
  max_sample_value : Option (List Nat)
  x_resolution : Option (Nat × Nat)
  y_resolution : Option (Nat × Nat)
  planar_configuration : PlanarConfiguration
  resolution_unit : Option Nat
  software : Option String
  date_time : Option String
  artist : Option String
  host_computer : Option String
  predictor : Option Predictor
  color_map : Option (List Nat)
  tile_width : Option Nat
  tile_height : Option Nat
  tile_offsets : Option (List Nat)
  tile_byte_counts : Option (List Nat)
  extra_samples : Option (List Nat)
  sample_format : List SampleFormat
  jpeg_tables : Option (List Nat)
  copyright : Option String
  geo_key_directory : Option GeoKeyDirectory
  model_pixel_scale : Option (List Nat)
  model_tiepoint : Option (List Nat)
  other_tags : List (Tag × Value)
  next_ifd_offset : Option Nat

/-- `ImageFileDirectory::from_tags` (src/ifd.rs lines 239–490): folds the tag
map, parses the GeoKeyDirectory after all other tags, then builds the record —
unwrapping every mandatory field with `expect` (a panic when absent), in the
source's evaluation order. -/
def ImageFileDirectory.from_tags (tag_data : List (Tag × Value))
    (next_ifd_offset : Option Nat) : Except Fail ImageFileDirectory := do
  let st ← processTags tag_data
  let geo_key_directory ←
    match st.geo_key_directory_data with
    | some data => do
        let g ← parseGeoKeyDirectory data st.geo_ascii_params st.geo_double_params
        pure (some g)
    | none => pure none
  let samples_per_pixel ← expectSome st.samples_per_pixel "samples_per_pixel not found"
  let planar_configuration :=
    match st.planar_configuration with
    | some pc => pc
    | none => PlanarConfiguration.chunky
  let image_width ← expectSome st.image_width "image_width not found"
  let image_height ← expectSome st.image_height "image_height not found"
  let bits_per_sample ← expectSome st.bits_per_sample "bits per sample not found"
  let photometric_interpretation ←
    expectSome st.photometric_interpretation "photometric interpretation not found"
  .ok {
    new_subfile_type := st.new_subfile_type
    image_width
    image_height
    bits_per_sample
    compression := st.compression.getD 1
    photometric_interpretation
    document_name := st.document_name
    image_description := st.image_description
    strip_offsets := st.strip_offsets
    orientation := st.orientation
    samples_per_pixel
    rows_per_strip := st.rows_per_strip
    strip_byte_counts := st.strip_byte_counts
    min_sample_value := st.min_sample_value
    max_sample_value := st.max_sample_value
    x_resolution := st.x_resolution
    y_resolution := st.y_resolution
    planar_configuration
    resolution_unit := st.resolution_unit
    software := st.software
    date_time := st.date_time
    artist := st.artist
    host_computer := st.host_computer
    predictor := st.predictor
    color_map := st.color_map
    tile_width := st.tile_width
    tile_height := st.tile_height
    tile_offsets := st.tile_offsets
    tile_byte_counts := st.tile_byte_counts
    extra_samples := st.extra_samples
    sample_format := st.sample_format.getD (List.replicate samples_per_pixel SampleFormat.uint)
    jpeg_tables := st.jpeg_tables
    copyright := st.copyright
    geo_key_directory
    model_pixel_scale := st.model_pixel_scale
    model_tiepoint := st.model_tiepoint
    other_tags := st.other_tags
    next_ifd_offset
  }

/-! ## Tile location and fetch (src/ifd.rs) -/

/-- Ceiling division.  `ImageFileDirectory::tile_count` computes
`(a as f64 / b as f64).ceil() as usize`; for `u32` inputs with `b > 0` the
`f64` quotient of exactly-representable operands rounds too finely to cross an
integer boundary, so the result equals `⌈a / b⌉`.  (`u32::div_ceil`, used by
`PredictorInfo`, is exactly this as well.) -/
def divCeil (a b : Nat) : Nat :=
  (a + b - 1) / b

/-- The `Tile` constructed by `ImageFileDirectory::fetch_tile` (src/ifd.rs). -/
structure Tile where
  x : Nat
  y : Nat
  compressed_bytes : List Nat
  compression_method : CompressionMethod
  photometric_interpretation : PhotometricInterpretation
  jpeg_tables : Option (List Nat)

/-- `ImageFileDirectory::tile_count`: `None` when this is not a tiled TIFF. -/
def ImageFileDirectory.tile_count (self : ImageFileDirectory) : Option (Nat × Nat) := do
  let tw ← self.tile_width
  let th ← self.tile_height
  some (divCeil self.image_width tw, divCeil self.image_height th)

/-- `ImageFileDirectory::get_tile_byte_range`: `none` when the strip/tile
tags are missing; the `tile_offsets[idx]` / `tile_byte_counts[idx]` indexing
panics when `idx` is out of range. -/
def ImageFileDirectory.get_tile_byte_range (self : ImageFileDirectory) (x y : Nat) :
    Except Fail (Option (Nat × Nat)) :=
  match self.tile_offsets, self.tile_byte_counts, self.tile_count with
  | some tile_offsets, some tile_byte_counts, some tc => do
      let idx := y * tc.1 + x
      let offset ← indexPanic tile_offsets idx
      let byte_count ← indexPanic tile_byte_counts idx
      pure (some (offset, offset + byte_count))
  | _, _, _ => pure none

/-- `ImageFileDirectory::fetch_tile`: the reader is the `AsyncFileReader`
byte-range capability. -/
def ImageFileDirectory.fetch_tile (self : ImageFileDirectory) (x y : Nat)
    (reader : Nat → Nat → Except Fail (List Nat)) : Except Fail Tile := do
  match ← self.get_tile_byte_range x y with
  | none => .error (.error (.general "Not a tiled TIFF"))
  | some range => do
      let compressed_bytes ← reader range.1 range.2
      pure { x, y, compressed_bytes,
             compression_method := self.compression,
             photometric_interpretation := self.photometric_interpretation,
             jpeg_tables := self.jpeg_tables }

namespace tile

/-- `PredictorInfo` of src/tile.rs (the variant carrying the full
`bits_per_sample` slice). -/
structure PredictorInfo where
  endianness : Endianness
  image_width : Nat
  image_height : Nat
  chunk_width : Nat
  chunk_height : Nat
  bits_per_sample : List Nat
  samples_per_pixel : Nat
  sample_format : List SampleFormat
  planar_configuration : PlanarConfiguration

/-- `PredictorInfo::chunks_across` (src/tile.rs): `image_width.div_ceil(chunk_width)`. -/
def PredictorInfo.chunks_across (self : PredictorInfo) : Nat :=
  divCeil self.image_width self.chunk_width

/-- `PredictorInfo::chunks_down` (src/tile.rs). -/
def PredictorInfo.chunks_down (self : PredictorInfo) : Nat :=
  divCeil self.image_height self.chunk_height

/-- `PredictorInfo::chunk_width_pixels` (src/tile.rs lines 76–88): out-of-range
`x` yields `TileIndexError(x, chunks_across)`; the last chunk is truncated. -/
def PredictorInfo.chunk_width_pixels (self : PredictorInfo) (x : Nat) : Except Fail Nat :=
  if x ≥ self.chunks_across then
    .error (.error (.tileIndexError x self.chunks_across))
  else if x = self.chunks_across - 1 then
    .ok (self.image_width - self.chunk_width * x)
  else
    .ok self.chunk_width

/-- `PredictorInfo::chunk_height_pixels` (src/tile.rs lines 116–128). -/
def PredictorInfo.chunk_height_pixels (self : PredictorInfo) (y : Nat) : Except Fail Nat :=
  if y ≥ self.chunks_down then
    .error (.error (.tileIndexError y self.chunks_down))
  else if y = self.chunks_down - 1 then
    .ok (self.image_height - self.chunk_height * y)
  else
    .ok self.chunk_height

/-- `PredictorInfo::bits_per_pixel` (src/tile.rs lines 142–154).  Note: the
Chunky branch with `bits_per_sample.len() > 1` takes the *product* of the
entries (`.iter().map(|v| *v as usize).product()`). -/
def PredictorInfo.bits_per_pixel (self : PredictorInfo) : Except Fail Nat :=
  match self.planar_configuration with
  | .chunky =>
      if self.bits_per_sample.length = 1 then
        .ok (self.samples_per_pixel * self.bits_per_sample.headD 0)
      else if self.samples_per_pixel = self.bits_per_sample.length then
        .ok (self.bits_per_sample.foldl (· * ·) 1)
      else
        .error (.panic "assertion failed: samples_per_pixel == bits_per_sample.len()")
  | .planar => indexPanic self.bits_per_sample 0

/-- `PredictorInfo::output_row_stride` (src/tile.rs lines 131–133). -/
def PredictorInfo.output_row_stride (self : PredictorInfo) (x : Nat) : Except Fail Nat := do
  pure ((← self.chunk_width_pixels x) * (← self.bits_per_pixel) / 8)

end tile

namespace predictor

/-- `PredictorInfo` of src/predictor.rs (single `bits_per_sample`). -/
structure PredictorInfo where
  endianness : Endianness
  image_width : Nat
  image_height : Nat
  chunk_width : Nat
  chunk_height : Nat
  bits_per_sample : Nat
  samples_per_pixel : Nat
  sample_format : SampleFormat
  planar_configuration : PlanarConfiguration
deriving DecidableEq, Repr

/-- `windows(2).all(|w| w[0] == w[1])`: adjacent elements all equal. -/
def windowsAllEqual : List Nat → Bool
  | a :: b :: rest => a = b && windowsAllEqual (b :: rest)
  | _ => true

/-- `PredictorInfo::from_ifd` (src/predictor.rs lines 62–90).  The IFD
endianness is passed separately (the record field it is read from belongs to a
revision of `ImageFileDirectory` whose definition is otherwise identical). -/
def PredictorInfo.from_ifd (endianness : Endianness) (ifd : ImageFileDirectory) :
    Except Fail PredictorInfo := do
  if ¬ windowsAllEqual ifd.bits_per_sample then
    .error (.panic "bits_per_sample should be the same for all channels")
  else do
    let chunk_width :=
      match ifd.tile_width with
      | some tile_width => tile_width
      | none => ifd.image_width
    let chunk_height ←
      match ifd.tile_height with
      | some tile_height => pure tile_height
      | none => expectSome ifd.rows_per_strip "no tile height and no rows_per_strip"
    let bits_per_sample ← indexPanic ifd.bits_per_sample 0
    let sample_format ← indexPanic ifd.sample_format 0
    pure {
      endianness
      image_width := ifd.image_width
      image_height := ifd.image_height
      chunk_width
      chunk_height
      bits_per_sample
      samples_per_pixel := ifd.samples_per_pixel
      sample_format
      planar_configuration := ifd.planar_configuration
    }

/-- `PredictorInfo::chunks_across` (src/predictor.rs). -/
def PredictorInfo.chunks_across (self : PredictorInfo) : Nat :=
  divCeil self.image_width self.chunk_width

/-- `PredictorInfo::chunks_down` (src/predictor.rs). -/
def PredictorInfo.chunks_down (self : PredictorInfo) : Nat :=
  divCeil self.image_height self.chunk_height

/-- `PredictorInfo::chunk_width_pixels` (src/predictor.rs lines 95–105). -/
def PredictorInfo.chunk_width_pixels (self : PredictorInfo) (x : Nat) : Except Fail Nat :=
  if x ≥ self.chunks_across then
    .error (.error (.tileIndexError x self.chunks_across))
  else if x = self.chunks_across - 1 then
    .ok (self.image_width - self.chunk_width * x)
  else
    .ok self.chunk_width

/-- `PredictorInfo::chunk_height_pixels` (src/predictor.rs lines 110–120). -/
def PredictorInfo.chunk_height_pixels (self : PredictorInfo) (y : Nat) : Except Fail Nat :=
  if y ≥ self.chunks_down then
    .error (.error (.tileIndexError y self.chunks_down))
  else if y = self.chunks_down - 1 then
    .ok (self.image_height - self.chunk_height * y)
  else
    .ok self.chunk_height

/-- `PredictorInfo::bits_per_pixel` (src/predictor.rs lines 138–145):
`bits_per_sample * samples_per_pixel` for Chunky, `bits_per_sample` for
Planar. -/
def PredictorInfo.bits_per_pixel (self : PredictorInfo) : Nat :=
  match self.planar_configuration with
  | .chunky => self.bits_per_sample * self.samples_per_pixel
  | .planar => self.bits_per_sample

/-- `PredictorInfo::output_row_stride` (src/predictor.rs lines 123–125). -/
def PredictorInfo.output_row_stride (self : PredictorInfo) (x : Nat) : Except Fail Nat := do
  pure ((← self.chunk_width_pixels x) * self.bits_per_pixel / 8)

/-- `PredictorInfo::output_rows` (src/predictor.rs lines 128–136). -/
def PredictorInfo.output_rows (self : PredictorInfo) (y : Nat) : Except Fail Nat := do
  match self.planar_configuration with
  | .chunky => pure (← self.chunk_height_pixels y)
  | .planar => pure ((← self.chunk_height_pixels y) * self.samples_per_pixel)

end predictor

/-! ## Tag decoding (src/metadata/reader.rs)

The metadata cursor is re-modelled here backed directly by the file bytes and
carrying a log of every fetched range, so that "which byte ranges are fetched"
is part of the state.  `MetadataCursor::read` slices the file; a read past the
end yields a short blob whose scalar readers then fail with an I/O error (the
`Bytes`-backed fetch would abort there; either way no *value* is produced, and
the range is still logged). -/

/-- Two's-complement reinterpretation of a `w`-byte unsigned value. -/
def toSigned (w n : Nat) : Int :=
  if n < 2 ^ (8 * w - 1) then (n : Int) else (n : Int) - 2 ^ (8 * w)

/-- `EndianAwareReader` (src/reader.rs): a byte blob consumed front-to-back
with endian-aware scalar readers. -/
structure EndianAwareReader where
  bytes : List Nat
  endianness : Endianness

/-- Consume `n` bytes and return their endian-aware unsigned value; an I/O
error when the blob is exhausted (`byteorder` reading from `io::Read`). -/
def EndianAwareReader.readUnsigned (r : EndianAwareReader) (n : Nat) :
    Except Fail (Nat × EndianAwareReader) :=
  if n ≤ r.bytes.length then
    .ok (endValue r.endianness (r.bytes.take n), ⟨r.bytes.drop n, r.endianness⟩)
  else
    .error (.error (.ioError "failed to fill whole buffer"))

/-- A `MetadataCursor` together with the log of fetched ranges. -/
structure LogCursor where
  offset : Nat
  endianness : Endianness
  log : List (Nat × Nat)

/-- Cursor computations: state-passing over `LogCursor`, failing with `Fail`. -/
abbrev CursorM := StateT LogCursor (Except Fail)

/-- Lift a pure fallible computation into `CursorM`. -/
def liftE {α : Type} (e : Except Fail α) : CursorM α :=
  fun c => e.map (fun a => (a, c))

/-- `MetadataCursor::read(length)`: logs `offset..offset+length`, advances the
offset, and hands back an `EndianAwareReader` over the fetched bytes. -/
def cursorRead (file : List Nat) (length : Nat) : CursorM EndianAwareReader :=
  fun c =>
    .ok (⟨listSlice file c.offset (c.offset + length), c.endianness⟩,
         { c with
            offset := c.offset + length,
            log := c.log ++ [(c.offset, c.offset + length)] })

/-- `MetadataCursor::seek`. -/
def cursorSeek (offset : Nat) : CursorM Unit :=
  fun c => .ok ((), { c with offset })

/-- `MetadataCursor::advance`. -/
def cursorAdvance (amount : Nat) : CursorM Unit :=
  fun c => .ok ((), { c with offset := c.offset + amount })

/-- `MetadataCursor::read_u8` and friends: a fresh `read(n)` per scalar. -/
def creadN (file : List Nat) (n : Nat) : CursorM Nat := do
  let r ← cursorRead file n
  let (v, _) ← liftE (r.readUnsigned n)
  pure v

/-- `MetadataCursor::read_u16`. -/
def creadU16 (file : List Nat) : CursorM Nat := creadN file 2

/-- `MetadataCursor::read_u32`. -/
def creadU32 (file : List Nat) : CursorM Nat := creadN file 4

/-- `MetadataCursor::read_u64`. -/
def creadU64 (file : List Nat) : CursorM Nat := creadN file 8

/-- `MetadataCursor::read_i64` (and the narrower signed variants below). -/
def creadI64 (file : List Nat) : CursorM Int := do
  pure (toSigned 8 (← creadN file 8))

/-- `MetadataCursor::read_i32`. -/
def creadI32 (file : List Nat) : CursorM Int := do
  pure (toSigned 4 (← creadN file 4))

/-- `MetadataCursor::read_f64`: the raw bit pattern. -/
def creadF64 (file : List Nat) : CursorM Nat := creadN file 8

/-- `MetadataCursor::read_f32`: the raw bit pattern. -/
def creadF32 (file : List Nat) : CursorM Nat := creadN file 4

/-- The TIFF tag `Type` codes (spec §3; the vendored `tags.rs` is absent from
src/). -/
inductive TagType where
  | BYTE
  | ASCII
  | SHORT
  | LONG
  | RATIONAL
  | SBYTE
  | UNDEFINED
  | SSHORT
  | SLONG
  | SRATIONAL
  | FLOAT
  | DOUBLE
  | IFD
  | LONG8
  | SLONG8
  | IFD8
deriving DecidableEq, Repr

/-- `Type::from_u16` (spec §3: BYTE=1 … IFD8=18). -/
def TagType.from_u16 : Nat → Option TagType
  | 1 => some .BYTE
  | 2 => some .ASCII
  | 3 => some .SHORT
  | 4 => some .LONG
  | 5 => some .RATIONAL
  | 6 => some .SBYTE
  | 7 => some .UNDEFINED
  | 8 => some .SSHORT
  | 9 => some .SLONG
  | 10 => some .SRATIONAL
  | 11 => some .FLOAT
  | 12 => some .DOUBLE
  | 13 => some .IFD
  | 16 => some .LONG8
  | 17 => some .SLONG8
  | 18 => some .IFD8
  | _ => none

/-- The per-element byte size `match` at the top of `read_tag_value`
(src/metadata/reader.rs lines 298–308). -/
def TagType.size : TagType → Nat
  | .BYTE | .SBYTE | .ASCII | .UNDEFINED => 1
  | .SHORT | .SSHORT => 2
  | .LONG | .SLONG | .FLOAT | .IFD => 4
  | .LONG8 | .SLONG8 | .DOUBLE | .RATIONAL | .SRATIONAL | .IFD8 => 8

/-- Strip NUL bytes from both ends (`str::trim_matches(char::from(0))`). -/
def trimZeros (l : List Nat) : List Nat :=
  ((l.dropWhile (· = 0)).reverse.dropWhile (· = 0)).reverse

/-- Byte list rendered as a string (callers have established it is ASCII). -/
def bytesToString (l : List Nat) : String :=
  ⟨l.map Char.ofNat⟩

/-- The multi-byte ASCII decoding of cases 3 and 2 of `read_tag_value`:
`is_ascii && ends_with(&[0])` then UTF-8 decode and NUL-trim, else
`panic!("Invalid tag")`. -/
def asciiFromBytes (buf : List Nat) : Except Fail Value :=
  if buf.all (· < 128) ∧ buf.getLast? = some 0 then
    .ok (.ascii (bytesToString (trimZeros buf)))
  else
    .error (.panic "Invalid tag")

/-- `n` sequential element reads from one fetched blob (the `for _ in 0..count`
loops of case 3). -/
def readerLoop :
    Nat → (EndianAwareReader → Except Fail (Value × EndianAwareReader)) →
    EndianAwareReader → Except Fail (List Value)
  | 0, _, _ => .ok []
  | n + 1, step, r => do
      let (v, r') ← step r
      let rest ← readerLoop n step r'
      .ok (v :: rest)

/-- `n` sequential element reads, each a fresh cursor fetch (the
`for _ in 0..count` loops of case 4). -/
def cursorLoop : Nat → CursorM Value → CursorM (List Value)
  | 0, _ => pure []
  | n + 1, step => do
      let v ← step
      let rest ← cursorLoop n step
      pure (v :: rest)

/-- `read_tag_value` (src/metadata/reader.rs lines 287–622). -/
def read_tag_value (file : List Nat) (tag_type : TagType) (count : Nat)
    (bigtiff : Bool) : CursorM Value := do
  -- Case 1: there are no values so we can return immediately.
  if count = 0 then
    return .list []
  let tag_size := tag_type.size
  let value_byte_length := count * tag_size
  -- Case 2: there is one value.  (The scalar decodes are pure reads of the
  -- fetched blob — `Ok(match tag_type { ... ? ... })` in the source — hence
  -- `liftE` of an `Except` computation.)
  if count = 1 then
    -- 2a: the value is 5-8 bytes and we're in BigTiff mode.
    if bigtiff ∧ 4 < value_byte_length ∧ value_byte_length ≤ 8 then
      let data ← cursorRead file value_byte_length
      match tag_type with
      | .LONG8 => liftE (do
          let (v, _) ← data.readUnsigned 8
          pure (.unsignedBig v))
      | .SLONG8 => liftE (do
          let (v, _) ← data.readUnsigned 8
          pure (.signedBig (toSigned 8 v)))
      | .DOUBLE => liftE (do
          let (v, _) ← data.readUnsigned 8
          pure (.double v))
      | .RATIONAL => liftE (do
          let (n, data') ← data.readUnsigned 4
          let (d, _) ← data'.readUnsigned 4
          pure (.rational n d))
      | .SRATIONAL => liftE (do
          let (n, data') ← data.readUnsigned 4
          let (d, _) ← data'.readUnsigned 4
          pure (.srational (toSigned 4 n) (toSigned 4 d)))
      | .IFD8 => liftE (do
          let (v, _) ← data.readUnsigned 8
          pure (.ifdBig v))
      | _ => liftE (.error (.panic "entered unreachable code"))
    else
      -- 2b: the value is at most 4 bytes or doesn't fit in the offset field.
      let data ← cursorRead file value_byte_length
      match tag_type with
      | .BYTE | .UNDEFINED => liftE (do
          let (v, _) ← data.readUnsigned 1
          pure (.byte v))
      | .SBYTE => liftE (do
          let (v, _) ← data.readUnsigned 1
          pure (.signedByte (toSigned 1 v)))
      | .SHORT => liftE (do
          let (v, _) ← data.readUnsigned 2
          pure (.short v))
      | .SSHORT => liftE (do
          let (v, _) ← data.readUnsigned 2
          pure (.signedShort (toSigned 2 v)))
      | .LONG => liftE (do
          let (v, _) ← data.readUnsigned 4
          pure (.unsigned v))
      | .SLONG => liftE (do
          let (v, _) ← data.readUnsigned 4
          pure (.signed (toSigned 4 v)))
      | .FLOAT => liftE (do
          let (v, _) ← data.readUnsigned 4
          pure (.float v))
      | .ASCII => liftE (
          match data.bytes.get? 0 with
          | some 0 => .ok (.ascii "")
          | some _ => .error (.panic "Invalid tag")
          | none => .error (.panic "index out of bounds"))
      | .LONG8 => do
          let (offset, _) ← liftE (data.readUnsigned 4)
          cursorSeek offset
          let v ← creadU64 file
          return .unsignedBig v
      | .SLONG8 => do
          let (offset, _) ← liftE (data.readUnsigned 4)
          cursorSeek offset
          let v ← creadI64 file
          return .signedBig v
      | .DOUBLE => do
          let (offset, _) ← liftE (data.readUnsigned 4)
          cursorSeek offset
          let v ← creadF64 file
          return .double v
      | .RATIONAL => do
          let (offset, _) ← liftE (data.readUnsigned 4)
          cursorSeek offset
          let numerator ← creadU32 file
          let denominator ← creadU32 file
          return .rational numerator denominator
      | .SRATIONAL => do
          let (offset, _) ← liftE (data.readUnsigned 4)
          cursorSeek offset
          let numerator ← creadI32 file
          let denominator ← creadI32 file
          return .srational numerator denominator
      | .IFD => liftE (do
          let (v, _) ← data.readUnsigned 4
          pure (.ifdOffset v))
      | .IFD8 => do
          let (offset, _) ← liftE (data.readUnsigned 4)
          cursorSeek offset
          let v ← creadU64 file
          return .ifdBig v
  else
  -- Case 3: There is more than one value, but it fits in the offset field.
  if value_byte_length ≤ 4 ∨ (bigtiff ∧ value_byte_length ≤ 8) then do
    let data ← cursorRead file value_byte_length
    if bigtiff then
      cursorAdvance (8 - value_byte_length)
    else
      cursorAdvance (4 - value_byte_length)
    match tag_type with
    | .BYTE | .UNDEFINED => do
        let v ← liftE (readerLoop count
          (fun r => (r.readUnsigned 1).map (fun p => (.byte p.1, p.2))) data)
        return .list v
    | .SBYTE => do
        let v ← liftE (readerLoop count
          (fun r => (r.readUnsigned 1).map (fun p => (.signedByte (toSigned 1 p.1), p.2))) data)
        return .list v
    | .ASCII => do
        if count ≤ data.bytes.length then
          liftE (asciiFromBytes (data.bytes.take count))
        else
          liftE (.error (.error (.ioError "failed to fill whole buffer")))
    | .SHORT => do
        let v ← liftE (readerLoop count
          (fun r => (r.readUnsigned 2).map (fun p => (.short p.1, p.2))) data)
        return .list v
    | .SSHORT => do
        let v ← liftE (readerLoop count
          (fun r => (r.readUnsigned 2).map (fun p => (.signedShort (toSigned 2 p.1), p.2))) data)
        return .list v
    | .LONG => do
        let v ← liftE (readerLoop count
          (fun r => (r.readUnsigned 4).map (fun p => (.unsigned p.1, p.2))) data)
        return .list v
    | .SLONG => do
        let v ← liftE (readerLoop count
          (fun r => (r.readUnsigned 4).map (fun p => (.signed (toSigned 4 p.1), p.2))) data)
        return .list v
    | .FLOAT => do
        let v ← liftE (readerLoop count
          (fun r => (r.readUnsigned 4).map (fun p => (.float p.1, p.2))) data)
        return .list v
    | .IFD => do
        let v ← liftE (readerLoop count
          (fun r => (r.readUnsigned 4).map (fun p => (.ifdOffset p.1, p.2))) data)
        return .list v
    | .LONG8 | .SLONG8 | .RATIONAL | .SRATIONAL | .DOUBLE | .IFD8 =>
        liftE (.error (.panic "entered unreachable code"))
  else do
    -- Seek cursor
    let offset ← if bigtiff then creadU64 file else creadU32 file
    cursorSeek offset
    -- Case 4: more than one value that does not fit in the offset field.
    match tag_type with
    | .BYTE | .UNDEFINED => do
        let v ← cursorLoop count (do pure (.byte (← creadN file 1)))
        return .list v
    | .SBYTE => do
        let v ← cursorLoop count (do pure (.signedByte (toSigned 1 (← creadN file 1))))
        return .list v
    | .SHORT => do
        let v ← cursorLoop count (do pure (.short (← creadU16 file)))
        return .list v
    | .SSHORT => do
        let v ← cursorLoop count (do pure (.signedShort (toSigned 2 (← creadU16 file))))
        return .list v
    | .LONG => do
        let v ← cursorLoop count (do pure (.unsigned (← creadU32 file)))
        return .list v
    | .SLONG => do
        let v ← cursorLoop count (do pure (.signed (← creadI32 file)))
        return .list v
    | .FLOAT => do
        let v ← cursorLoop count (do pure (.float (← creadF32 file)))
        return .list v
    | .DOUBLE => do
        let v ← cursorLoop count (do pure (.double (← creadF64 file)))
        return .list v
    | .RATIONAL => do
        let v ← cursorLoop count
          (do pure (.rational (← creadU32 file) (← creadU32 file)))
        return .list v
    | .SRATIONAL => do
        let v ← cursorLoop count
          (do pure (.srational (← creadI32 file) (← creadI32 file)))
        return .list v
    | .LONG8 => do
        let v ← cursorLoop count (do pure (.unsignedBig (← creadU64 file)))
        return .list v
    | .SLONG8 => do
        let v ← cursorLoop count (do pure (.signedBig (← creadI64 file)))
        return .list v
    | .IFD => do
        let v ← cursorLoop count (do pure (.ifdOffset (← creadU32 file)))
        return .list v
    | .IFD8 => do
        let v ← cursorLoop count (do pure (.ifdBig (← creadU64 file)))
        return .list v
    | .ASCII => do
        let buf ← cursorRead file count
        if count ≤ buf.bytes.length then
          -- truncate at the first NUL, then UTF-8 decode
          let out := buf.bytes.take count
          let out := out.takeWhile (· ≠ 0)
          if out.all (· < 128) then
            return .ascii (bytesToString out)
          else
            liftE (.error (.error (.general "invalid utf-8 sequence")))
        else
          liftE (.error (.error (.ioError "failed to fill whole buffer")))

/-- `read_tag` (src/metadata/reader.rs lines 257–280): parse one IFD entry at
`tag_offset`; the returned cursor carries the log of every fetched range. -/
def read_tag (file : List Nat) (tag_offset : Nat) (endianness : Endianness)
    (bigtiff : Bool) : Except Fail ((Tag × Value) × LogCursor) :=
  (do
    let tag_name ← creadU16 file
    let tag_type_code ← creadU16 file
    let tag_type ← liftE (expectSome (TagType.from_u16 tag_type_code)
      "Unknown tag type {tag_type_code}. TODO: we should skip entries with unknown tag types.")
    let count ← if bigtiff then creadU64 file else creadU32 file
    let tag_value ← read_tag_value file tag_type count bigtiff
    pure (tag_name, tag_value) : CursorM (Tag × Value))
    ⟨tag_offset, endianness, []⟩

/-! ## The IFD chain walk (src/metadata/reader.rs `TiffMetadataReader`,
`ImageFileDirectoryReader`; the same `while let Some(offset)` loop as
`ImageFileDirectories::open` in src/ifd.rs) -/

/-- `ImageFileDirectoryReader` (src/metadata/reader.rs lines 148–160). -/
structure ImageFileDirectoryReader where
  endianness : Endianness
  bigtiff : Bool
  ifd_start_offset : Nat
  tag_count : Nat
  ifd_entry_byte_size : Nat
  tag_count_byte_size : Nat

/-- `ImageFileDirectoryReader::open`: reads the tag count at the IFD start. -/
def ImageFileDirectoryReader.open (file : List Nat) (ifd_start_offset : Nat)
    (bigtiff : Bool) (endianness : Endianness) :
    Except Fail ImageFileDirectoryReader := do
  let ifd_entry_byte_size := if bigtiff then 20 else 12
  let tag_count_byte_size := if bigtiff then 8 else 2
  let (tag_count, _) ←
    (if bigtiff then creadU64 file else creadU16 file) ⟨ifd_start_offset, endianness, []⟩
  pure { endianness, bigtiff, ifd_start_offset, tag_count, ifd_entry_byte_size,
         tag_count_byte_size }

/-- `ImageFileDirectoryReader::read_tag` (by index; asserts the index is in
range). -/
def ImageFileDirectoryReader.read_tag (self : ImageFileDirectoryReader)
    (file : List Nat) (tag_idx : Nat) : Except Fail (Tag × Value) := do
  if tag_idx ≥ self.tag_count then
    .error (.panic "assertion failed: tag_idx < self.tag_count")
  else do
    let tag_offset := self.ifd_start_offset + self.tag_count_byte_size +
      self.ifd_entry_byte_size * tag_idx
    let ((tag_name, tag_value), _) ←
      AsyncTiff.read_tag file tag_offset self.endianness self.bigtiff
    pure (tag_name, tag_value)

/-- `ImageFileDirectoryReader::read`: all tags, then
`ImageFileDirectory::from_tags` (whose `next_ifd_offset` parameter is absent
in the metadata-reader revision; `finish` reports it separately, so `none` is
passed here). -/
def ImageFileDirectoryReader.read (self : ImageFileDirectoryReader)
    (file : List Nat) : Except Fail ImageFileDirectory := do
  let tags ← (List.range self.tag_count).mapM (self.read_tag file)
  ImageFileDirectory.from_tags tags none

/-- `ImageFileDirectoryReader::finish`: reads the next-IFD offset just past
the entry block and normalises `0` to `None`. -/
def ImageFileDirectoryReader.finish (self : ImageFileDirectoryReader)
    (file : List Nat) : Except Fail (Option Nat) := do
  let next_ifd_byte_offset := self.ifd_start_offset + self.tag_count_byte_size +
    self.ifd_entry_byte_size * self.tag_count
  let (next_ifd_offset, _) ←
    (if self.bigtiff then creadU64 file else creadU32 file)
      ⟨next_ifd_byte_offset, self.endianness, []⟩
  pure (if next_ifd_offset = 0 then none else some next_ifd_offset)

/-- `TiffMetadataReader` (src/metadata/reader.rs lines 23–27). -/
structure TiffMetadataReader where
  endianness : Endianness
  bigtiff : Bool
  next_ifd_offset : Option Nat
deriving DecidableEq, Repr

/-- `TiffMetadataReader::has_next_ifd`. -/
def TiffMetadataReader.has_next_ifd (self : TiffMetadataReader) : Bool :=
  self.next_ifd_offset.isSome

/-- `TiffMetadataReader::read_next_ifd` (src/metadata/reader.rs lines
110–125). -/
def TiffMetadataReader.read_next_ifd (self : TiffMetadataReader)
    (file : List Nat) :
    Except Fail (Option ImageFileDirectory × TiffMetadataReader) := do
  match self.next_ifd_offset with
  | some ifd_start => do
      let ifd_reader ← ImageFileDirectoryReader.open file ifd_start self.bigtiff self.endianness
      let ifd ← ifd_reader.read file
      let next_ifd_offset ← ifd_reader.finish file
      pure (some ifd, { self with next_ifd_offset })
  | none => pure (none, self)

/-- `TiffMetadataReader::read_all_ifds` (src/metadata/reader.rs lines
128–137): `while let Some(ifd) = self.read_next_ifd(fetch).await? { ... }`.
The loop has no cycle guard, so it is embedded with fuel: `.ok none` means
the loop was still running when the fuel ran out. -/
def TiffMetadataReader.read_all_ifds (file : List Nat) :
    Nat → TiffMetadataReader → Except Fail (Option (List ImageFileDirectory))
  | 0, self => if self.has_next_ifd then .ok none else .ok (some [])
  | fuel + 1, self => do
      match ← self.read_next_ifd file with
      | (none, _) => pure (some [])
      | (some ifd, self') =>
          match ← read_all_ifds file fuel self' with
          | none => pure none
          | some rest => pure (some (ifd :: rest))

/-- The walk terminates (with a result or an error) for *some* amount of
fuel; `.ok none` for every fuel is precisely a diverging `while` loop. -/
def ChainWalkTerminates (file : List Nat) (self : TiffMetadataReader) : Prop :=
  ∃ fuel, TiffMetadataReader.read_all_ifds file fuel self ≠ .ok none

/-! ### Concrete example files -/

/-- A classic little-endian IFD with the five mandatory tags at offset 8,
followed by the given 4-byte next-IFD offset field. -/
def exampleIfdBytes (next : List Nat) : List Nat :=
  [0, 0, 0, 0, 0, 0, 0, 0] ++
  [5, 0] ++
  [0, 1, 3, 0, 1, 0, 0, 0, 16, 0, 0, 0] ++
  [1, 1, 3, 0, 1, 0, 0, 0, 16, 0, 0, 0] ++
  [2, 1, 3, 0, 1, 0, 0, 0, 8, 0, 0, 0] ++
  [6, 1, 3, 0, 1, 0, 0, 0, 1, 0, 0, 0] ++
  [21, 1, 3, 0, 1, 0, 0, 0, 1, 0, 0, 0] ++
  next

/-- A single-IFD chain whose next-IFD offset is 0. -/
def terminatingFile : List Nat := exampleIfdBytes [0, 0, 0, 0]

/-- A cyclic chain: the IFD at offset 8 lists offset 8 as the next IFD. -/
def cyclicFile : List Nat := exampleIfdBytes [8, 0, 0, 0]

/-! ## Predictors (src/predictor.rs)

Buffers are byte lists.  In-place index loops become fuelled structural
recursions (the fuel is the buffer length, an upper bound on the iteration
count for every element width ≥ 1 used by the source).  A Rust read at an
out-of-range index — a panic — is modelled by `getD _ 0` / a short slice;
every theorem below establishes the indices stay in range, so the default is
never observable in a proved statement. -/

/-- The fuelled worker behind `chunksExactMap`. -/
def chunksExactGo (w : Nat) (f : List Nat → List Nat) : Nat → List Nat → List Nat
  | 0, l => l
  | fuel + 1, l =>
      if l.length < w ∨ w = 0 then l
      else f (l.take w) ++ chunksExactGo w f fuel (l.drop w)

/-- `chunks_exact_mut(w)` with a per-chunk rewrite; the short remainder is
left untouched. -/
def chunksExactMap (w : Nat) (f : List Nat → List Nat) (l : List Nat) : List Nat :=
  chunksExactGo w f l.length l

/-- `fix_endianness` (src/predictor.rs lines 219–257): early return when the
stored order matches the host, otherwise re-encode each 2/4/8-byte group from
the stored order to native order. -/
def fix_endianness (host : Endianness) (buffer : List Nat) (byte_order : Endianness)
    (bit_depth : Nat) : List Nat :=
  if byte_order = host then buffer
  else
    match byte_order with
    | .littleEndian =>
        if bit_depth ≤ 8 then buffer
        else if bit_depth ≤ 16 then chunksExactMap 2 (fun v => neBytes host 2 (leValue v)) buffer
        else if bit_depth ≤ 32 then chunksExactMap 4 (fun v => neBytes host 4 (leValue v)) buffer
        else chunksExactMap 8 (fun v => neBytes host 8 (leValue v)) buffer
    | .bigEndian =>
        if bit_depth ≤ 8 then buffer
        else if bit_depth ≤ 16 then chunksExactMap 2 (fun v => neBytes host 2 (beValue v)) buffer
        else if bit_depth ≤ 32 then chunksExactMap 4 (fun v => neBytes host 4 (beValue v)) buffer
        else chunksExactMap 8 (fun v => neBytes host 8 (beValue v)) buffer

/-- The in-place loop shared by all `rev_hpredict_nsamp` arms (and, with
`w = 1`, by the byte differencing of `rev_predict_f16/f32/f64`):
`for i in (samples*w..buf.len()).step_by(w) { elem[i] += elem[i - samples*w] }`
with native-endian `w`-byte elements and wrap-around addition. -/
def revDiffLoop (host : Endianness) (w s : Nat) :
    Nat → List Nat → Nat → List Nat
  | 0, buf, _ => buf
  | fuel + 1, buf, i =>
      if buf.length ≤ i then buf
      else
        let v := neValue host (listSlice buf i (i + w))
        let p := neValue host (listSlice buf (i - s * w) (i - s * w + w))
        let buf' := buf.take i ++ neBytes host w ((v + p) % 2 ^ (8 * w)) ++ buf.drop (i + w)
        revDiffLoop host w s fuel buf' (i + w)

/-- `rev_hpredict_nsamp` (src/predictor.rs lines 182–214). -/
def rev_hpredict_nsamp (host : Endianness) (buf : List Nat) (bit_depth : Nat)
    (samples : Nat) : Except Fail (List Nat) :=
  if bit_depth ≤ 8 then
    .ok (revDiffLoop host 1 samples buf.length buf (samples * 1))
  else if bit_depth ≤ 16 then
    .ok (revDiffLoop host 2 samples buf.length buf (samples * 2))
  else if bit_depth ≤ 32 then
    .ok (revDiffLoop host 4 samples buf.length buf (samples * 4))
  else if bit_depth ≤ 64 then
    .ok (revDiffLoop host 8 samples buf.length buf (samples * 8))
  else
    .error (.panic "entered unreachable code: Caller should have validated arguments. Please file a bug.")

namespace predictor

/-- `unpredict_hdiff` (src/predictor.rs lines 161–175): endianness fix-up on
the whole buffer, then per-output-row reverse horizontal differencing. -/
def unpredict_hdiff (host : Endianness) (buffer : List Nat)
    (predictor_info : PredictorInfo) (tile_x : Nat) : Except Fail (List Nat) := do
  let output_row_stride ← predictor_info.output_row_stride tile_x
  let samples := predictor_info.samples_per_pixel
  let bit_depth := predictor_info.bits_per_sample
  let buffer := fix_endianness host buffer predictor_info.endianness bit_depth
  let rows ← (dataChunks output_row_stride buffer).mapM
    (fun buf => rev_hpredict_nsamp host buf bit_depth samples)
  pure rows.flatten

/-- `rev_predict_f16` / `rev_predict_f32` / `rev_predict_f64`
(src/predictor.rs lines 324–394), with the element width `w ∈ {2, 4, 8}`:
reverse the bytewise horizontal differencing in place, then rebuild each
output element from one byte per big-endian-ordered plane of the input,
emitting native order. -/
def rev_predict_fw (host : Endianness) (w : Nat) (input output : List Nat)
    (samples : Nat) : List Nat :=
  let input := revDiffLoop host 1 samples input.length input (samples * 1)
  let chunkTotal := output.length / w
  let planeLen := input.length / w
  ((List.range chunkTotal).map (fun i =>
      neBytes host w (beValue ((List.range w).map (fun p =>
        input.getD (planeLen * p + i) 0))))).flatten
  ++ output.drop (chunkTotal * w)

/-- `unpredict_float` (src/predictor.rs lines 265–317). -/
def unpredict_float (host : Endianness) (in_buffer out_buffer : List Nat)
    (predictor_info : PredictorInfo) (tile_x : Nat) : Except Fail (List Nat) := do
  let output_row_stride ← predictor_info.output_row_stride tile_x
  let bit_depth := predictor_info.bits_per_sample
  if (← predictor_info.chunk_width_pixels tile_x) = predictor_info.chunk_width then do
    -- no special padding handling
    let inRows := dataChunks output_row_stride in_buffer
    let outRows := dataChunks output_row_stride out_buffer
    let rows ← (inRows.zip outRows).mapM (fun p =>
      if bit_depth = 16 then
        .ok (rev_predict_fw host 2 p.1 p.2 predictor_info.samples_per_pixel)
      else if bit_depth = 32 then
        .ok (rev_predict_fw host 4 p.1 p.2 predictor_info.samples_per_pixel)
      else if bit_depth = 64 then
        .ok (rev_predict_fw host 8 p.1 p.2 predictor_info.samples_per_pixel)
      else
        .error (.error (.general "thou shalt not predict this bit depth")))
    pure (rows.flatten ++ (outRows.drop (min inRows.length outRows.length)).flatten)
  else do
    -- specially handle padding bytes
    let input_row_stride :=
      predictor_info.chunk_width * predictor_info.bits_per_sample / 8
    let inRows := dataChunks input_row_stride in_buffer
    let outRows := dataChunks output_row_stride out_buffer
    let rows ← (inRows.zip outRows).mapM (fun p => do
      let out_row := List.replicate input_row_stride 0
      let out_row ←
        if bit_depth = 16 then
          pure (rev_predict_fw host 2 p.1 out_row predictor_info.samples_per_pixel)
        else if bit_depth = 32 then
          pure (rev_predict_fw host 4 p.1 out_row predictor_info.samples_per_pixel)
        else if bit_depth = 64 then
          pure (rev_predict_fw host 8 p.1 out_row predictor_info.samples_per_pixel)
        else
          (.error (.error (.general "thou shalt not predict this bit depth")) :
            Except Fail (List Nat))
      -- out_buf.copy_from_slice(&out_row[..output_row_stride]) panics on a
      -- length mismatch or when the range escapes out_row
      if p.2.length = output_row_stride ∧ output_row_stride ≤ out_row.length then
        pure (out_row.take output_row_stride)
      else
        .error (.panic "copy_from_slice: length mismatch"))
    pure (rows.flatten ++ (outRows.drop (min inRows.length outRows.length)).flatten)

/-! ### The forward predictor operations

These are the claim's "forward differencing" / "byte shuffle", written from
the spec (§4.10) — the library only ships the inverses. -/

/-- Element width used by the 8/16/32/64-bit arms of the predictors. -/
def depthBytes (bit_depth : Nat) : Nat :=
  if bit_depth ≤ 8 then 1
  else if bit_depth ≤ 16 then 2
  else if bit_depth ≤ 32 then 4
  else 8

/-- Group a byte buffer into native-endian `w`-byte element values. -/
def toElems (host : Endianness) (w : Nat) (l : List Nat) : List Nat :=
  (dataChunks w l).map (neValue host)

/-- Serialize element values back to native-endian bytes. -/
def fromElems (host : Endianness) (w : Nat) (es : List Nat) : List Nat :=
  (es.map (neBytes host w)).flatten

/-- Forward differencing on element values modulo `M`:
`d[i] = e[i] - e[i - s]` for `i ≥ s`, `d[i] = e[i]` below. -/
def diffElems (s M : Nat) (es : List Nat) : List Nat :=
  es.take s ++ List.zipWith (fun a b => (a + (M - b % M)) % M) (es.drop s) es

/-- Forward horizontal differencing of one host-order row at element width
`w`, `s` samples per pixel. -/
def forwardDiffRow (host : Endianness) (w s : Nat) (row : List Nat) : List Nat :=
  fromElems host w (diffElems s (2 ^ (8 * w)) (toElems host w row))

/-- The forward Horizontal predictor (spec §4.10): per-row forward
differencing of the host-order buffer, then conversion to the file byte order
(`fix_endianness` is the same byte-group swap in either direction). -/
def predict_hdiff (host : Endianness) (buffer : List Nat)
    (predictor_info : PredictorInfo) (tile_x : Nat) : Except Fail (List Nat) := do
  let stride ← predictor_info.output_row_stride tile_x
  let w := depthBytes predictor_info.bits_per_sample
  let rows := dataChunks stride buffer
  let diffed := (rows.map (forwardDiffRow host w predictor_info.samples_per_pixel)).flatten
  pure (fix_endianness host diffed predictor_info.endianness predictor_info.bits_per_sample)

/-- The forward byte shuffle of the floating-point predictor (spec §4.10):
each element contributes its big-endian bytes to `w` consecutive planes,
independent of the file endianness. -/
def shuffleRow (host : Endianness) (w : Nat) (row : List Nat) : List Nat :=
  let elems := toElems host w row
  ((List.range w).map (fun p => elems.map (fun v => (beBytes w v).getD p 0))).flatten

/-- The forward FloatingPoint predictor (spec §4.10): pad each row to the
full chunk width, shuffle the bytes into big-endian-like planes, then apply
bytewise forward differencing. -/
def predict_float (host : Endianness) (buffer : List Nat)
    (predictor_info : PredictorInfo) (tile_x : Nat) : Except Fail (List Nat) := do
  let stride ← predictor_info.output_row_stride tile_x
  let w := depthBytes predictor_info.bits_per_sample
  let full_stride := predictor_info.chunk_width * predictor_info.bits_per_sample / 8
  let rows := dataChunks stride buffer
  let padded := rows.map (fun r => r ++ List.replicate (full_stride - stride) 0)
  pure ((padded.map (fun r =>
    forwardDiffRow host 1 predictor_info.samples_per_pixel (shuffleRow host w r))).flatten)

end predictor

/-! ### Concrete records used by witnesses and counterexamples -/

/-- A stripped IFD (strip offsets/byte counts populated, no tile tags). -/
def strippedIfd : ImageFileDirectory where
  new_subfile_type := none
  image_width := 64
  image_height := 64
  bits_per_sample := [8]
  compression := 1
  photometric_interpretation := .blackIsZero
  document_name := none
  image_description := none
  strip_offsets := some [418]
  orientation := none
  samples_per_pixel := 1
  rows_per_strip := some 64
  strip_byte_counts := some [1000]
  min_sample_value := none
  max_sample_value := none
  x_resolution := none
  y_resolution := none
  planar_configuration := .chunky
  resolution_unit := none
  software := none
  date_time := none
  artist := none
  host_computer := none
  predictor := none
  color_map := none
  tile_width := none
  tile_height := none
  tile_offsets := none
  tile_byte_counts := none
  extra_samples := none
  sample_format := [.uint]
  jpeg_tables := none
  copyright := none
  geo_key_directory := none
  model_pixel_scale := none
  model_tiepoint := none
  other_tags := []
  next_ifd_offset := none

/-- A tiled IFD: a 16×16 image in 8×8 tiles (a 2×2 grid, 4 tiles). -/
def tiledIfd : ImageFileDirectory :=
  { strippedIfd with
      image_width := 16
      image_height := 16
      strip_offsets := none
      strip_byte_counts := none
      rows_per_strip := none
      tile_width := some 8
      tile_height := some 8
      tile_offsets := some [100, 200, 300, 400]
      tile_byte_counts := some [10, 10, 10, 10] }

/-- A tag map with the mandatory tags except PhotometricInterpretation. -/
def c2Tags : List (Tag × Value) :=
  [(256, .short 16), (257, .short 16), (258, .short 8), (277, .short 1)]

/-- The mandatory tags plus a GeoKeyDirectory whose single key id 9999 is not
a recognized GeoKeyTag. -/
def geoBadTags : List (Tag × Value) :=
  [(256, .short 16), (257, .short 16), (258, .short 8), (262, .short 1), (277, .short 1),
   (34735, .list [.short 1, .short 1, .short 0, .short 1,
                  .short 9999, .short 0, .short 1, .short 42])]

/-- The same directory with the recognized key id 1024 (ModelType). -/
def geoGoodTags : List (Tag × Value) :=
  [(256, .short 16), (257, .short 16), (258, .short 8), (262, .short 1), (277, .short 1),
   (34735, .list [.short 1, .short 1, .short 0, .short 1,
                  .short 1024, .short 0, .short 1, .short 42])]

/-!
# Theorems

All definitions precede this point; everything below is lemmas and the claim
theorems.
-/

/-- C10: for every metadata cursor and requested read length `n`, the cursor
offset after `read(n)` is the pre-read offset plus `n`, and the returned
outcome is exactly the underlying fetch outcome of `offset..offset+n` — the
offset advance is unconditional and happens before the fetch resolves, so a
failed read leaves the cursor `n` bytes past its pre-read position. -/
theorem c10_cursor_advances_unconditionally
    (fetch : Nat → Nat → Except String (List Nat)) (c : MetadataCursor) (n : Nat) :
    (c.read fetch n).1.offset = c.offset + n ∧
    (c.read fetch n).2 = fetch c.offset (c.offset + n) := by
  exact ⟨rfl, rfl⟩

/-- C8 (counterexample): the range `2..4` lies entirely inside `[0, 4)`
(its exclusive end equals the prefetch length 4), yet `PrefetchBuffer::fetch`
over a 4-byte buffer hands it to the inner source: with an inner source that
fails, the fetch fails instead of returning the buffered bytes `[12, 13]`. -/
theorem c8_prefetch_boundary_counterexample :
    PrefetchBuffer.fetch (fun _ _ => .error "inner") [10, 11, 12, 13] 2 4 = .error "inner" ∧
    PrefetchBuffer.fetch (fun _ _ => .error "inner") [10, 11, 12, 13] 2 4
      ≠ .ok (listSlice [10, 11, 12, 13] 2 4) := by
  exact ⟨rfl, by simp [PrefetchBuffer.fetch, listSlice]⟩

/-- C8 (amended): a metadata fetch is served from the prefetch buffer — the
result is the corresponding slice of the buffered head, independent of the
inner source — exactly when `range.start < N` and `range.end < N` (both
strict); whenever `range.end ≥ N` or `range.start ≥ N` the whole request is
delegated to the inner source. -/
theorem c8_prefetch_buffer_behavior :
    (∀ (inner : Nat → Nat → Except String (List Nat)) (buffer : List Nat)
        (rangeStart rangeStop : Nat),
        rangeStart < buffer.length → rangeStop < buffer.length →
        PrefetchBuffer.fetch inner buffer rangeStart rangeStop =
          .ok (listSlice buffer rangeStart rangeStop)) ∧
    (∀ (inner : Nat → Nat → Except String (List Nat)) (buffer : List Nat)
        (rangeStart rangeStop : Nat),
        buffer.length ≤ rangeStop →
        PrefetchBuffer.fetch inner buffer rangeStart rangeStop =
          inner rangeStart rangeStop) ∧
    (∀ (inner : Nat → Nat → Except String (List Nat)) (buffer : List Nat)
        (rangeStart rangeStop : Nat),
        buffer.length ≤ rangeStart →
        PrefetchBuffer.fetch inner buffer rangeStart rangeStop =
          inner rangeStart rangeStop) := by
  refine ⟨?_, ?_, ?_⟩
  · intro inner buffer a b ha hb
    simp [PrefetchBuffer.fetch, ha, hb]
  · intro inner buffer a b hb
    by_cases ha : a < buffer.length
    · simp [PrefetchBuffer.fetch, ha, Nat.not_lt.mpr hb]
    · simp [PrefetchBuffer.fetch, ha]
  · intro inner buffer a b ha
    simp [PrefetchBuffer.fetch, Nat.not_lt.mpr ha]

/-- C8 witness: the claim theorem applied at concrete inputs (a served fetch
`1..3` and delegated fetches `2..4` and `5..6` over a 4-byte buffer). -/
theorem c8_prefetch_buffer_behavior_witness :
    PrefetchBuffer.fetch (fun _ _ => .error "inner") [10, 11, 12, 13] 1 3 = .ok [11, 12] ∧
    PrefetchBuffer.fetch (fun _ _ => .error "inner") [10, 11, 12, 13] 2 4 = .error "inner" ∧
    PrefetchBuffer.fetch (fun _ _ => .error "inner") [10, 11, 12, 13] 5 6 = .error "inner" := by
  refine ⟨?_, ?_, ?_⟩
  · have := c8_prefetch_buffer_behavior.1 (fun _ _ => .error "inner") [10, 11, 12, 13] 1 3
      (by decide) (by decide)
    simpa [listSlice] using this
  · exact c8_prefetch_buffer_behavior.2.1 (fun _ _ => .error "inner") [10, 11, 12, 13] 2 4
      (by decide)
  · exact c8_prefetch_buffer_behavior.2.2 (fun _ _ => .error "inner") [10, 11, 12, 13] 5 6
      (by decide)

/-- C7 (code evaluated at the failing input): with `bits_per_sample = [8, 8]`,
`samples_per_pixel = 2`, Chunky, the src/tile.rs `bits_per_pixel` returns the
*product* `8 * 8 = 64` (so an 8×8 image in 4×4 chunks gets
`output_row_stride(0) = 4 * 64 / 8 = 32` bytes), while the spec's formula
`bits_per_sample × samples_per_pixel` — which the src/predictor.rs twin
implements — gives `16` bits and stride `8`. -/
theorem c7_bits_per_pixel_product_bug :
    tile.PredictorInfo.bits_per_pixel
      ⟨.littleEndian, 8, 8, 4, 4, [8, 8], 2, [.uint, .uint], .chunky⟩ = .ok 64 ∧
    tile.PredictorInfo.output_row_stride
      ⟨.littleEndian, 8, 8, 4, 4, [8, 8], 2, [.uint, .uint], .chunky⟩ 0 = .ok 32 ∧
    predictor.PredictorInfo.bits_per_pixel
      ⟨.littleEndian, 8, 8, 4, 4, 8, 2, .uint, .chunky⟩ = 16 ∧
    predictor.PredictorInfo.output_row_stride
      ⟨.littleEndian, 8, 8, 4, 4, 8, 2, .uint, .chunky⟩ 0 = .ok 8 := by
  exact ⟨rfl, rfl, rfl, rfl⟩

/-- C5 (counterexample): on a stripped IFD (strip_offsets `[418]`,
strip_byte_counts `[1000]` populated, no tile tags), `fetch_tile(0, 0)` does
not return the byte range `[418, 1418)` — it fails with
`General("Not a tiled TIFF")`. -/
theorem c5_stripped_fetch_counterexample :
    strippedIfd.strip_offsets = some [418] ∧
    strippedIfd.strip_byte_counts = some [1000] ∧
    strippedIfd.fetch_tile 0 0 (fun a b => .ok (List.replicate (b - a) 0)) =
      .error (.error (.general "Not a tiled TIFF")) := by
  exact ⟨rfl, rfl, rfl⟩

/-- C5 (amended): `fetch_tile` never falls back to the strip tags — whenever
`tile_offsets` is absent it fails with `General("Not a tiled TIFF")` for every
coordinate and reader; strips are treated as chunks of width `image_width`
and height `rows_per_strip` only by `PredictorInfo::from_ifd` (the decode
geometry). -/
theorem c5_stripped_ifd_behavior :
    (∀ (ifd : ImageFileDirectory) (x y : Nat)
        (reader : Nat → Nat → Except Fail (List Nat)),
        ifd.tile_offsets = none →
        ifd.fetch_tile x y reader = .error (.error (.general "Not a tiled TIFF"))) ∧
    (∀ (e : Endianness) (ifd : ImageFileDirectory) (rps : Nat)
        (info : predictor.PredictorInfo),
        ifd.tile_width = none → ifd.tile_height = none →
        ifd.rows_per_strip = some rps →
        predictor.PredictorInfo.from_ifd e ifd = .ok info →
        info.chunk_width = ifd.image_width ∧ info.chunk_height = rps) := by
  constructor
  · intro ifd x y reader h
    simp [ImageFileDirectory.fetch_tile, ImageFileDirectory.get_tile_byte_range, h]
  · intro e ifd rps info htw hth hrps hok
    unfold predictor.PredictorInfo.from_ifd at hok
    rw [htw, hth, hrps] at hok
    by_cases hw : predictor.windowsAllEqual ifd.bits_per_sample
    · rw [if_neg (by simp [hw])] at hok
      simp only [expectSome, bind, Except.bind, Functor.map, Except.map] at hok
      split at hok
      · exact absurd hok (by simp)
      · split at hok
        · exact absurd hok (by simp)
        · injection hok with h
          subst h
          exact ⟨rfl, rfl⟩
    · rw [if_pos (by simp [hw])] at hok
      exact absurd hok (by simp)

/-- C5 witness: the claim theorem applied to the concrete stripped IFD. -/
theorem c5_stripped_ifd_behavior_witness :
    strippedIfd.fetch_tile 0 0 (fun a b => .ok (List.replicate (b - a) 0)) =
      .error (.error (.general "Not a tiled TIFF")) ∧
    (predictor.PredictorInfo.from_ifd .littleEndian strippedIfd =
      .ok ⟨.littleEndian, 64, 64, 64, 64, 8, 1, .uint, .chunky⟩) ∧
    (⟨.littleEndian, 64, 64, 64, 64, 8, 1, .uint, .chunky⟩ :
        predictor.PredictorInfo).chunk_width = strippedIfd.image_width ∧
    (⟨.littleEndian, 64, 64, 64, 64, 8, 1, .uint, .chunky⟩ :
        predictor.PredictorInfo).chunk_height = 64 := by
  refine ⟨c5_stripped_ifd_behavior.1 strippedIfd 0 0 _ rfl, rfl, ?_⟩
  exact c5_stripped_ifd_behavior.2 .littleEndian strippedIfd 64 _ rfl rfl rfl rfl

/-- C6 (counterexample): on the tiled IFD with a 2×2 tile grid, the chunk
coordinate `(0, 2)` has `idx = 2*2 + 0 = 4 ≥ tile_offsets.len() = 4`, and
`get_tile_byte_range` *panics* with an index-out-of-bounds — it does not
return a `TileIndexError`. -/
theorem c6_out_of_range_counterexample :
    tiledIfd.get_tile_byte_range 0 2 = .error (.panic "index out of bounds") ∧
    Fail.panic "index out of bounds" ≠ Fail.error (.tileIndexError 2 2) := by
  exact ⟨rfl, by simp⟩

/-- C6 (amended): out-of-range chunk coordinates make the fetch path panic —
whenever `idx = y * tiles_across + x` is out of range of `tile_offsets`,
`get_tile_byte_range` fails with the index-out-of-bounds panic — while
`TileIndexError(coordinate, bound)` is returned by the decode-side
`PredictorInfo::chunk_width_pixels` / `chunk_height_pixels` for
`x ≥ chunks_across` / `y ≥ chunks_down`. -/
theorem c6_tile_index_error_behavior :
    (∀ (ifd : ImageFileDirectory) (x y : Nat) (offs cnts : List Nat) (tc : Nat × Nat),
        ifd.tile_offsets = some offs → ifd.tile_byte_counts = some cnts →
        ifd.tile_count = some tc → offs.length ≤ y * tc.1 + x →
        ifd.get_tile_byte_range x y = .error (.panic "index out of bounds")) ∧
    (∀ (info : tile.PredictorInfo) (x : Nat), info.chunks_across ≤ x →
        info.chunk_width_pixels x =
          .error (.error (.tileIndexError x info.chunks_across))) ∧
    (∀ (info : tile.PredictorInfo) (y : Nat), info.chunks_down ≤ y →
        info.chunk_height_pixels y =
          .error (.error (.tileIndexError y info.chunks_down))) := by
  refine ⟨?_, ?_, ?_⟩
  · intro ifd x y offs cnts tc hoffs hcnts htc hlen
    simp only [ImageFileDirectory.get_tile_byte_range, hoffs, hcnts, htc]
    have h : offs[y * tc.1 + x]? = none := List.getElem?_eq_none hlen
    simp [indexPanic, h, bind, Except.bind]
  · intro info x hx
    simp [tile.PredictorInfo.chunk_width_pixels, hx]
  · intro info y hy
    simp [tile.PredictorInfo.chunk_height_pixels, hy]

/-- C6 witness: the claim theorem applied to the concrete tiled IFD (a
2×2 grid) at the out-of-range coordinates `(0, 2)`, and to its decode-side
`PredictorInfo` at column 2 and row 5. -/
theorem c6_tile_index_error_behavior_witness :
    tiledIfd.get_tile_byte_range 0 2 = .error (.panic "index out of bounds") ∧
    tile.PredictorInfo.chunk_width_pixels
      ⟨.littleEndian, 16, 16, 8, 8, [8], 1, [.uint], .chunky⟩ 2 =
      .error (.error (.tileIndexError 2 2)) ∧
    tile.PredictorInfo.chunk_height_pixels
      ⟨.littleEndian, 16, 16, 8, 8, [8], 1, [.uint], .chunky⟩ 5 =
      .error (.error (.tileIndexError 5 2)) := by
  refine ⟨?_, ?_, ?_⟩
  · exact c6_tile_index_error_behavior.1 tiledIfd 0 2 [100, 200, 300, 400]
      [10, 10, 10, 10] (2, 2) rfl rfl rfl (by decide)
  · exact c6_tile_index_error_behavior.2.1 ⟨.littleEndian, 16, 16, 8, 8, [8], 1, [.uint], .chunky⟩
      2 (by decide)
  · exact c6_tile_index_error_behavior.2.2 ⟨.littleEndian, 16, 16, 8, 8, [8], 1, [.uint], .chunky⟩
      5 (by decide)

/-- C9 (counterexample): an IFD whose GeoKeyDirectory contains the single
unrecognized key id `9999` makes `from_tags` panic with
`"Unknown GeoKeyTag id: {key_id}"` (the literal `expect` message) instead of
skipping the key; with the recognized key id `1024` in its place the same
IFD parses successfully. -/
theorem c9_unknown_geokey_counterexample :
    ImageFileDirectory.from_tags geoBadTags none =
      .error (.panic "Unknown GeoKeyTag id: {key_id}") ∧
    (ImageFileDirectory.from_tags geoGoodTags none).toOption.isSome = true := by
  exact ⟨rfl, rfl⟩

/-- C9 (amended): when the GeoKeyDirectory key loop reaches an entry whose
`key_id` is not a recognized `GeoKeyTag`, it panics via
`try_from_primitive(key_id).expect("Unknown GeoKeyTag id: {key_id}")`,
aborting IFD construction — the key is not skipped. -/
theorem c9_unknown_geokey_behavior
    (geo_ascii_params : Option String) (geo_double_params : Option (List Nat))
    (tags : List (Nat × Value)) (chunk : List Nat) (rest : List (List Nat))
    (key_id n : Nat)
    (h0 : chunk[0]? = some key_id)
    (hunk : GeoKeyTag.try_from_primitive key_id = none) :
    geoKeyLoop geo_ascii_params geo_double_params (n + 1) (chunk :: rest) tags =
      .error (.panic "Unknown GeoKeyTag id: {key_id}") := by
  simp [geoKeyLoop, geoKeyStep, indexPanic, h0, hunk, expectSome, bind, Except.bind]

/-- C9 witness: the claim theorem applied to the concrete entry
`[9999, 0, 1, 42]`. -/
theorem c9_unknown_geokey_behavior_witness :
    geoKeyLoop (some "") (some []) 1 [[9999, 0, 1, 42]] [] =
      .error (.panic "Unknown GeoKeyTag id: {key_id}") :=
  c9_unknown_geokey_behavior (some "") (some []) [] [9999, 0, 1, 42] [] 9999 0
    (by decide) (by decide)

/-- Folding a tag other than SamplesPerPixel (277) leaves the
`samples_per_pixel` builder field unchanged. -/
theorem foldTag_frame_samples {st : TagFold} {t : Tag} {v : Value} {st' : TagFold}
    (h : foldTag st t v = .ok st') (ht : t ≠ 277) :
    st'.samples_per_pixel = st.samples_per_pixel := by
  unfold foldTag at h
  split at h
  all_goals try (exact absurd rfl ht)
  all_goals (
    simp only [bind, Except.bind, pure, Except.pure] at h
    repeat' split at h
    all_goals first
      | (injection h with h2; subst h2; rfl)
      | (exact absurd h (by simp)))

/-- Folding a tag other than ImageWidth (256) leaves `image_width`
unchanged. -/
theorem foldTag_frame_width {st : TagFold} {t : Tag} {v : Value} {st' : TagFold}
    (h : foldTag st t v = .ok st') (ht : t ≠ 256) :
    st'.image_width = st.image_width := by
  unfold foldTag at h
  split at h
  all_goals try (exact absurd rfl ht)
  all_goals (
    simp only [bind, Except.bind, pure, Except.pure] at h
    repeat' split at h
    all_goals first
      | (injection h with h2; subst h2; rfl)
      | (exact absurd h (by simp)))

/-- Folding a tag other than ImageLength (257) leaves `image_height`
unchanged. -/
theorem foldTag_frame_height {st : TagFold} {t : Tag} {v : Value} {st' : TagFold}
    (h : foldTag st t v = .ok st') (ht : t ≠ 257) :
    st'.image_height = st.image_height := by
  unfold foldTag at h
  split at h
  all_goals try (exact absurd rfl ht)
  all_goals (
    simp only [bind, Except.bind, pure, Except.pure] at h
    repeat' split at h
    all_goals first
      | (injection h with h2; subst h2; rfl)
      | (exact absurd h (by simp)))

/-- Folding a tag other than BitsPerSample (258) leaves `bits_per_sample`
unchanged. -/
theorem foldTag_frame_bits {st : TagFold} {t : Tag} {v : Value} {st' : TagFold}
    (h : foldTag st t v = .ok st') (ht : t ≠ 258) :
    st'.bits_per_sample = st.bits_per_sample := by
  unfold foldTag at h
  split at h
  all_goals try (exact absurd rfl ht)
  all_goals (
    simp only [bind, Except.bind, pure, Except.pure] at h
    repeat' split at h
    all_goals first
      | (injection h with h2; subst h2; rfl)
      | (exact absurd h (by simp)))

/-- Folding a tag other than PhotometricInterpretation (262) leaves
`photometric_interpretation` unchanged. -/
theorem foldTag_frame_photometric {st : TagFold} {t : Tag} {v : Value} {st' : TagFold}
    (h : foldTag st t v = .ok st') (ht : t ≠ 262) :
    st'.photometric_interpretation = st.photometric_interpretation := by
  unfold foldTag at h
  split at h
  all_goals try (exact absurd rfl ht)
  all_goals (
    simp only [bind, Except.bind, pure, Except.pure] at h
    repeat' split at h
    all_goals first
      | (injection h with h2; subst h2; rfl)
      | (exact absurd h (by simp)))

/-- Frame property lifted through the whole tag fold: a builder projection
untouched by every tag except `tcode` is preserved when `tcode` is absent. -/
theorem foldlM_tags_frame {α : Type} (proj : TagFold → α) (tcode : Tag)
    (hframe : ∀ (st : TagFold) (t : Tag) (v : Value) (st' : TagFold),
      foldTag st t v = .ok st' → t ≠ tcode → proj st' = proj st) :
    ∀ (td : List (Tag × Value)) (st0 st : TagFold),
      (∀ v, (tcode, v) ∉ td) →
      td.foldlM (fun st tv => foldTag st tv.1 tv.2) st0 = .ok st →
      proj st = proj st0 := by
  intro td
  induction td with
  | nil =>
      intro st0 st _ h
      simp only [List.foldlM_nil] at h
      cases h
      rfl
  | cons hd tl ih =>
      intro st0 st habs h
      simp only [List.foldlM_cons, bind, Except.bind] at h
      cases hf : foldTag st0 hd.1 hd.2 with
      | error f => rw [hf] at h; exact absurd h (by simp)
      | ok st1 =>
          rw [hf] at h
          have hne : hd.1 ≠ tcode := by
            intro he
            exact habs hd.2 (by simp [← he])
          have h1 : proj st1 = proj st0 := hframe st0 hd.1 hd.2 st1 hf hne
          have h2 : proj st = proj st1 :=
            ih st1 st (fun v hv => habs v (List.mem_cons_of_mem hd hv)) h
          rw [h2, h1]

/-- C2 (counterexample): a tag map carrying ImageWidth, ImageLength,
BitsPerSample and SamplesPerPixel but no PhotometricInterpretation makes
`from_tags` PANIC with `"photometric interpretation not found"`; that
outcome is not the `FormatError(RequiredTagNotFound)` result the claim
requires. -/
theorem c2_missing_tag_panics_counterexample :
    ImageFileDirectory.from_tags c2Tags none =
      .error (.panic "photometric interpretation not found") ∧
    Fail.panic "photometric interpretation not found" ≠
      Fail.error (.internalTiffError (.formatError (.requiredTagNotFound 262))) := by
  exact ⟨rfl, by simp⟩

/-- C2 (amended): for every tag map in which a mandatory tag is absent (and
whose other tags fold successfully), `from_tags` fails by *panicking* via
`Option::expect` with the message naming the missing field, evaluated in
source order — `samples_per_pixel` first, then `image_width`,
`image_height`, `bits_per_sample`, `photometric_interpretation` — rather
than returning a `FormatError(RequiredTagNotFound)` result.  (The
`geo_key_directory_data = none` hypotheses keep the GeoKeyDirectory block,
which runs before the unwraps, out of the way.) -/
theorem c2_missing_mandatory_tag_behavior :
    (∀ (td : List (Tag × Value)) (next : Option Nat) (st : TagFold),
        processTags td = .ok st → st.geo_key_directory_data = none →
        (∀ v, (277, v) ∉ td) →
        ImageFileDirectory.from_tags td next =
          .error (.panic "samples_per_pixel not found")) ∧
    (∀ (td : List (Tag × Value)) (next : Option Nat) (st : TagFold) (spp : Nat),
        processTags td = .ok st → st.geo_key_directory_data = none →
        st.samples_per_pixel = some spp →
        (∀ v, (256, v) ∉ td) →
        ImageFileDirectory.from_tags td next =
          .error (.panic "image_width not found")) ∧
    (∀ (td : List (Tag × Value)) (next : Option Nat) (st : TagFold) (spp w : Nat),
        processTags td = .ok st → st.geo_key_directory_data = none →
        st.samples_per_pixel = some spp → st.image_width = some w →
        (∀ v, (257, v) ∉ td) →
        ImageFileDirectory.from_tags td next =
          .error (.panic "image_height not found")) ∧
    (∀ (td : List (Tag × Value)) (next : Option Nat) (st : TagFold) (spp w hgt : Nat),
        processTags td = .ok st → st.geo_key_directory_data = none →
        st.samples_per_pixel = some spp → st.image_width = some w →
        st.image_height = some hgt →
        (∀ v, (258, v) ∉ td) →
        ImageFileDirectory.from_tags td next =
          .error (.panic "bits per sample not found")) ∧
    (∀ (td : List (Tag × Value)) (next : Option Nat) (st : TagFold)
        (spp w hgt : Nat) (bps : List Nat),
        processTags td = .ok st → st.geo_key_directory_data = none →
        st.samples_per_pixel = some spp → st.image_width = some w →
        st.image_height = some hgt → st.bits_per_sample = some bps →
        (∀ v, (262, v) ∉ td) →
        ImageFileDirectory.from_tags td next =
          .error (.panic "photometric interpretation not found")) := by
  refine ⟨?_, ?_, ?_, ?_, ?_⟩
  · intro td next st hproc hgeo habs
    have hnone : st.samples_per_pixel = none := by
      have := foldlM_tags_frame (fun s => s.samples_per_pixel) 277
        (fun st t v st' h ht => foldTag_frame_samples h ht) td {} st habs
        (by simpa [processTags] using hproc)
      simpa using this
    simp [ImageFileDirectory.from_tags, bind, Except.bind, pure, Except.pure, hproc, hgeo, hnone, expectSome]
  · intro td next st spp hproc hgeo hspp habs
    have hnone : st.image_width = none := by
      have := foldlM_tags_frame (fun s => s.image_width) 256
        (fun st t v st' h ht => foldTag_frame_width h ht) td {} st habs
        (by simpa [processTags] using hproc)
      simpa using this
    simp [ImageFileDirectory.from_tags, bind, Except.bind, pure, Except.pure, hproc, hgeo, hspp, hnone, expectSome]
  · intro td next st spp w hproc hgeo hspp hw habs
    have hnone : st.image_height = none := by
      have := foldlM_tags_frame (fun s => s.image_height) 257
        (fun st t v st' h ht => foldTag_frame_height h ht) td {} st habs
        (by simpa [processTags] using hproc)
      simpa using this
    simp [ImageFileDirectory.from_tags, bind, Except.bind, pure, Except.pure, hproc, hgeo,
      hspp, hw, hnone, expectSome]
  · intro td next st spp w hgt hproc hgeo hspp hw hh habs
    have hnone : st.bits_per_sample = none := by
      have := foldlM_tags_frame (fun s => s.bits_per_sample) 258
        (fun st t v st' h ht => foldTag_frame_bits h ht) td {} st habs
        (by simpa [processTags] using hproc)
      simpa using this
    simp [ImageFileDirectory.from_tags, bind, Except.bind, pure, Except.pure, hproc, hgeo,
      hspp, hw, hh, hnone, expectSome]
  · intro td next st spp w hgt bps hproc hgeo hspp hw hh hb habs
    have hnone : st.photometric_interpretation = none := by
      have := foldlM_tags_frame (fun s => s.photometric_interpretation) 262
        (fun st t v st' h ht => foldTag_frame_photometric h ht) td {} st habs
        (by simpa [processTags] using hproc)
      simpa using this
    simp [ImageFileDirectory.from_tags, bind, Except.bind, pure, Except.pure, hproc, hgeo,
      hspp, hw, hh, hb, hnone, expectSome]

/-- C2 witness: the claim theorem applied to concrete maps — one missing
SamplesPerPixel (first unwrap in source order) and one missing
PhotometricInterpretation (the `c2Tags` map). -/
theorem c2_missing_mandatory_tag_behavior_witness :
    ImageFileDirectory.from_tags
        [(256, .short 16), (257, .short 16), (258, .short 8), (262, .short 1)] none =
      .error (.panic "samples_per_pixel not found") ∧
    ImageFileDirectory.from_tags c2Tags none =
      .error (.panic "photometric interpretation not found") := by
  constructor
  · exact c2_missing_mandatory_tag_behavior.1
      [(256, .short 16), (257, .short 16), (258, .short 8), (262, .short 1)] none _
      rfl rfl (by intro v; simp)
  · exact c2_missing_mandatory_tag_behavior.2.2.2.2 c2Tags none _ 1 16 16 [8]
      rfl rfl rfl rfl rfl rfl (by intro v; simp [c2Tags])

/-- A state whose `read_next_ifd` hands back the *same* state (a self-cycle
in the IFD chain) keeps the walk running for every amount of fuel. -/
theorem selfloop_runs_forever {file : List Nat} {st : TiffMetadataReader}
    {ifd : ImageFileDirectory}
    (hr : st.read_next_ifd file = .ok (some ifd, st)) :
    ∀ fuel, TiffMetadataReader.read_all_ifds file fuel st = .ok none := by
  intro fuel
  induction fuel with
  | zero =>
      have hs : st.has_next_ifd := by
        by_contra hn
        have hnone : st.next_ifd_offset = none := by
          simpa [TiffMetadataReader.has_next_ifd, Option.isSome_iff_ne_none] using hn
        rw [TiffMetadataReader.read_next_ifd, hnone] at hr
        simp [pure, Except.pure] at hr
      simp [TiffMetadataReader.read_all_ifds, hs]
  | succ fuel ih =>
      simp [TiffMetadataReader.read_all_ifds, hr, bind, Except.bind, ih, pure, Except.pure]

/-- C1 (counterexample): on the concrete cyclic file — a well-formed IFD at
offset 8 whose next-IFD offset is 8 again — the chain walk started at
offset 8 never terminates: the cycle is not detected. -/
theorem c1_cycle_not_detected_counterexample :
    ¬ ChainWalkTerminates cyclicFile ⟨.littleEndian, false, some 8⟩ := by
  rintro ⟨fuel, hf⟩
  have hr : ∃ ifd, TiffMetadataReader.read_next_ifd ⟨.littleEndian, false, some 8⟩ cyclicFile
      = .ok (some ifd, ⟨.littleEndian, false, some 8⟩) := ⟨_, rfl⟩
  obtain ⟨ifd, hr⟩ := hr
  exact hf (selfloop_runs_forever hr fuel)

/-- C1 (amended): the IFD chain walk (`read_all_ifds`, the same
`while let Some(offset)` loop as `ImageFileDirectories::open`) stops when the
next-IFD offset 0 is reached — a state with no next offset terminates, and
termination propagates back along parsed links — but no visited-offset set is
kept: a chain that returns to the same state (an IFD whose next-IFD offset
points back at itself) is NOT detected, and the walk never terminates. -/
theorem c1_ifd_chain_walk :
    (∀ (file : List Nat) (st : TiffMetadataReader),
        st.next_ifd_offset = none → ChainWalkTerminates file st) ∧
    (∀ (file : List Nat) (st st' : TiffMetadataReader) (ifd : ImageFileDirectory),
        st.read_next_ifd file = .ok (some ifd, st') →
        ChainWalkTerminates file st' → ChainWalkTerminates file st) ∧
    (∀ (file : List Nat) (st : TiffMetadataReader) (ifd : ImageFileDirectory),
        st.read_next_ifd file = .ok (some ifd, st) →
        ¬ ChainWalkTerminates file st) := by
  refine ⟨?_, ?_, ?_⟩
  · intro file st h
    refine ⟨0, ?_⟩
    simp [TiffMetadataReader.read_all_ifds, TiffMetadataReader.has_next_ifd, h]
  · intro file st st' ifd hr ht
    obtain ⟨n, hn⟩ := ht
    refine ⟨n + 1, ?_⟩
    simp only [TiffMetadataReader.read_all_ifds, hr, bind, Except.bind]
    cases hi : TiffMetadataReader.read_all_ifds file n st' with
    | error f => simp
    | ok o =>
        cases o with
        | none => exact absurd hi hn
        | some l => simp [pure, Except.pure]
  · intro file st ifd hr ht
    obtain ⟨fuel, hf⟩ := ht
    exact hf (selfloop_runs_forever hr fuel)

/-- C1 witness: the claim theorem applied to the concrete files — the
single-IFD chain ending in 0 terminates; the self-cyclic chain does not. -/
theorem c1_ifd_chain_walk_witness :
    ChainWalkTerminates terminatingFile ⟨.littleEndian, false, some 8⟩ ∧
    ¬ ChainWalkTerminates cyclicFile ⟨.littleEndian, false, some 8⟩ := by
  constructor
  · exact c1_ifd_chain_walk.2.1 terminatingFile ⟨.littleEndian, false, some 8⟩ _ _ rfl
      (c1_ifd_chain_walk.1 terminatingFile _ rfl)
  · exact c1_ifd_chain_walk.2.2 cyclicFile ⟨.littleEndian, false, some 8⟩ _ rfl

/-! ### C3: the offset-in-field rule for Count = 1 small values -/


/-- A slice `listSlice f a (a + n)` is at most `n` long, so a further
`take n` is the identity. -/

theorem take_listSlice (f : List Nat) (a n : Nat) :
    (listSlice f a (a + n)).take n = listSlice f a (a + n) := by
  apply List.take_of_length_le
  simp [listSlice]

/-- A `cursorRead` followed by a pure decode logs exactly the range
`offset .. offset + n`. -/

theorem bindRead_liftE_log {α : Type} (file : List Nat) (n : Nat)
    (f : EndianAwareReader → Except Fail α) (c : LogCursor) (a : α) (c' : LogCursor)
    (h : (do let data ← cursorRead file n; liftE (f data) : CursorM α) c = .ok (a, c')) :
    c'.log = c.log ++ [(c.offset, c.offset + n)] := by
  simp only [bind, StateT.bind, Except.bind, cursorRead, liftE, Except.map] at h
  split at h
  · exact Except.noConfusion h
  · injection h with h2
    rw [Prod.mk.injEq] at h2
    obtain ⟨_, hc⟩ := h2
    subst hc
    rfl

/-- For `count = 1` and a value that fits the offset field, `read_tag_value`
performs exactly one fetch, of `size(type)` bytes at the cursor offset
(the start of the offset field). -/

theorem read_tag_value_count1_log
    (file : List Nat) (t : TagType) (bigtiff : Bool) (c : LogCursor)
    (v : Value) (c' : LogCursor)
    (hsz : t.size ≤ if bigtiff then 8 else 4)
    (h : read_tag_value file t 1 bigtiff c = .ok (v, c')) :
    c'.log = c.log ++ [(c.offset, c.offset + t.size)] := by
  cases t <;> cases bigtiff <;>
    first
      | (exfalso; simp [TagType.size] at hsz; done)
      | (simp only [read_tag_value, TagType.size] at h ⊢
         norm_num at h
         exact bindRead_liftE_log file _ _ c v c' h)

/-- Success shape of a scalar cursor read: the value is the endian-decoded
slice and the cursor advances by `n`, logging `offset .. offset + n`. -/

theorem creadN_ok (file : List Nat) (n : Nat) (c : LogCursor) (v : Nat) (c' : LogCursor)
    (h : creadN file n c = .ok (v, c')) :
    v = endValue c.endianness ((listSlice file c.offset (c.offset + n)).take n) ∧
    c' = ⟨c.offset + n, c.endianness, c.log ++ [(c.offset, c.offset + n)]⟩ := by
  simp only [creadN, bind, StateT.bind, Except.bind, cursorRead, liftE, Except.map,
    EndianAwareReader.readUnsigned, pure, StateT.pure, Except.pure] at h
  split at h
  all_goals try (exact Except.noConfusion h)
  rename_i p heq
  injection h with h2
  rw [Prod.mk.injEq] at h2
  obtain ⟨hv, hc⟩ := h2
  repeat' split at heq
  all_goals try (exact Except.noConfusion heq)
  injection heq with h3
  subst h3
  rename_i x2 v2 heq2
  first
    | exact Except.noConfusion heq2
    | (split at heq2
       · injection heq2 with h4
         subst h4
         exact ⟨hv.symm, hc.symm⟩
       · exact Except.noConfusion heq2)

/-- A successful `expect` on an `Option` neither touches the cursor nor logs. -/

theorem liftE_expectSome_ok {α : Type} (o : Option α) (msg : String)
    (c : LogCursor) (a : α) (c' : LogCursor)
    (h : liftE (expectSome o msg) c = .ok (a, c')) :
    o = some a ∧ c' = c := by
  cases o with
  | none => simp [liftE, expectSome, Except.map] at h
  | some x =>
    simp only [liftE, expectSome, Except.map] at h
    injection h with h2
    rw [Prod.mk.injEq] at h2
    obtain ⟨hv, hc⟩ := h2
    exact ⟨by rw [hv], hc.symm⟩

/-- C3: for an IFD entry whose Count is 1 and whose value byte length
`E = size(Type)` fits in the offset field (`E <= 4` classic, `E <= 8`
BigTIFF), `read_tag` fetches exactly the four in-entry ranges — tag id,
type, count, and the first `E` bytes of the offset field (the value is
decoded from the offset field itself) — and every fetched byte range lies
inside the 12-byte (classic) / 20-byte (BigTIFF) entry. -/

theorem c3_offset_in_field_rule
    (file : List Nat) (tag_offset : Nat) (e : Endianness) (bigtiff : Bool)
    (t : TagType) (tv : Tag × Value) (cur : LogCursor)
    (htype : TagType.from_u16 (endValue e (listSlice file (tag_offset + 2) (tag_offset + 4)))
      = some t)
    (hcount : endValue e (listSlice file (tag_offset + 4)
      (tag_offset + 4 + (if bigtiff then 8 else 4))) = 1)
    (hsz : t.size ≤ (if bigtiff then 8 else 4))
    (hok : read_tag file tag_offset e bigtiff = .ok (tv, cur)) :
    cur.log = [(tag_offset, tag_offset + 2), (tag_offset + 2, tag_offset + 4),
        (tag_offset + 4, tag_offset + 4 + (if bigtiff then 8 else 4)),
        (tag_offset + 4 + (if bigtiff then 8 else 4),
          tag_offset + 4 + (if bigtiff then 8 else 4) + t.size)] ∧
      ∀ r ∈ cur.log, tag_offset ≤ r.1 ∧ r.2 ≤ tag_offset + (if bigtiff then 20 else 12) := by
  cases bigtiff
  all_goals (
    simp only [Bool.false_eq_true, if_true, if_false, ite_true, ite_false] at hcount hsz ⊢
    simp only [read_tag, bind, StateT.bind, Except.bind, pure, StateT.pure, Except.pure,
      Bool.false_eq_true, if_true, if_false, ite_true, ite_false] at hok
    split at hok
    all_goals try (exact Except.noConfusion hok)
    rename_i x1 p1 heq1
    obtain ⟨hv1, hc1⟩ := creadN_ok file 2 ⟨tag_offset, e, []⟩ p1.1 p1.2 heq1
    dsimp only at hv1 hc1
    simp only [List.nil_append] at hc1
    rw [hc1] at hok
    split at hok
    all_goals try (exact Except.noConfusion hok)
    rename_i x2 p2 heq2
    obtain ⟨hv2, hc2⟩ := creadN_ok file 2 _ p2.1 p2.2 heq2
    dsimp only at hv2 hc2
    rw [take_listSlice] at hv2
    have e4 : tag_offset + 2 + 2 = tag_offset + 4 := by omega
    rw [e4] at hv2 hc2
    rw [hc2] at hok
    split at hok
    all_goals try (exact Except.noConfusion hok)
    rename_i x3 p3 heq3
    obtain ⟨ho3, hc3⟩ := liftE_expectSome_ok _ _ _ p3.1 p3.2 heq3
    rw [hv2, htype] at ho3
    injection ho3 with htEq
    rw [hc3] at hok
    split at hok
    all_goals try (exact Except.noConfusion hok)
    rename_i x4 p4 heq4
    obtain ⟨hv4, hc4⟩ := creadN_ok file _ _ p4.1 p4.2 heq4
    dsimp only at hv4 hc4
    rw [take_listSlice] at hv4
    rw [hcount] at hv4
    rw [hc4] at hok
    split at hok
    all_goals try (exact Except.noConfusion hok)
    rename_i x5 p5 heq5
    rw [← htEq, hv4] at heq5
    have hlog5 := read_tag_value_count1_log file t _ _ p5.1 p5.2 (by exact hsz) heq5
    dsimp only at hlog5
    injection hok with h6
    rw [Prod.mk.injEq] at h6
    obtain ⟨h7, hcur⟩ := h6
    refine ⟨?_, ?_⟩
    · rw [← hcur, hlog5]
      simp
    · intro r hr
      rw [← hcur, hlog5] at hr
      simp at hr
      rcases hr with rfl | rfl | rfl | rfl
      all_goals refine ⟨?_, ?_⟩
      all_goals simp
      all_goals omega)

/-- C3 witness: a concrete classic-TIFF SHORT entry with Count = 1; the
four logged ranges all sit inside the 12-byte entry. -/

theorem c3_offset_in_field_rule_witness :
    TagType.from_u16 (endValue Endianness.littleEndian
      (listSlice [1,1,3,0,1,0,0,0,42,0,0,0] (0 + 2) (0 + 4))) = some TagType.SHORT ∧
    (∀ r ∈ ((⟨10, Endianness.littleEndian,
        [(0, 2), (2, 4), (4, 8), (8, 10)]⟩ : LogCursor)).log,
      0 ≤ r.1 ∧ r.2 ≤ 0 + (if false then 20 else 12)) :=
  ⟨rfl,
   (c3_offset_in_field_rule [1,1,3,0,1,0,0,0,42,0,0,0] 0 .littleEndian false .SHORT
      (257, Value.short 42) ⟨10, .littleEndian, [(0,2),(2,4),(4,8),(8,10)]⟩
      rfl rfl (by decide) rfl).2⟩

/-! ### C4: predictor inversion

Byte-encoding roundtrips, chunking lemmas, the generic in-place reverse
differencing recovery, the `fix_endianness` involution, and the row-level
and buffer-level roundtrips for the Horizontal and FloatingPoint
predictors. -/

theorem add_sub_mod_cancel (x b M : Nat) (hM : 0 < M) (hx : x < M) :
    ((x + (M - b % M)) % M + b) % M = x := by
  have htle : b % M ≤ M := Nat.le_of_lt (Nat.mod_lt b hM)
  rw [Nat.mod_add_mod]
  nth_rewrite 2 [← Nat.mod_add_div b M]
  rw [← Nat.add_assoc, Nat.add_assoc x (M - b % M) (b % M), Nat.sub_add_cancel htle,
    Nat.add_mul_mod_self_left, Nat.add_mod_right]
  exact Nat.mod_eq_of_lt hx

theorem leBytes_length (w n : Nat) : (leBytes w n).length = w := by
  induction w generalizing n with
  | zero => rfl
  | succ w ih => simp [leBytes, ih]

theorem leBytes_lt (w n : Nat) : ∀ b ∈ leBytes w n, b < 256 := by
  induction w generalizing n with
  | zero => intro b hb; simp [leBytes] at hb
  | succ w ih =>
      intro b hb
      simp only [leBytes, List.mem_cons] at hb
      rcases hb with rfl | hb
      · omega
      · exact ih (n / 256) b hb

theorem leValue_leBytes (w n : Nat) : leValue (leBytes w n) = n % 2 ^ (8 * w) := by
  induction w generalizing n with
  | zero => simp [leBytes, leValue, Nat.mod_one]
  | succ w ih =>
      have h2 : (2 : Nat) ^ (8 * (w + 1)) = 256 * 2 ^ (8 * w) := by
        rw [Nat.mul_succ, pow_add]; norm_num; ring
      rw [leBytes, leValue, ih, h2, Nat.mod_mul]

theorem leValue_lt (l : List Nat) (hb : ∀ b ∈ l, b < 256) :
    leValue l < 2 ^ (8 * l.length) := by
  induction l with
  | nil => simp [leValue]
  | cons b rest ih =>
      have hbb : b < 256 := hb b (by simp)
      have hr := ih (fun x hx => hb x (by simp [hx]))
      have h2 : (2 : Nat) ^ (8 * (b :: rest).length) = 256 * 2 ^ (8 * rest.length) := by
        simp only [List.length_cons]
        rw [Nat.mul_succ, pow_add]; norm_num; ring
      rw [leValue, h2]
      calc b + 256 * leValue rest < 256 + 256 * leValue rest := by omega
        _ = 256 * (leValue rest + 1) := by ring
        _ ≤ 256 * 2 ^ (8 * rest.length) := Nat.mul_le_mul_left 256 (by omega)

theorem leBytes_leValue (l : List Nat) (hb : ∀ b ∈ l, b < 256) :
    leBytes l.length (leValue l) = l := by
  induction l with
  | nil => rfl
  | cons b rest ih =>
      have hbb : b < 256 := hb b (by simp)
      simp only [List.length_cons, leBytes, leValue]
      rw [show (b + 256 * leValue rest) % 256 = b from by omega,
        show (b + 256 * leValue rest) / 256 = leValue rest from by omega,
        ih (fun x hx => hb x (by simp [hx]))]
theorem beBytes_length (w n : Nat) : (beBytes w n).length = w := by
  simp [beBytes, leBytes_length]

theorem neBytes_length (host : Endianness) (w n : Nat) : (neBytes host w n).length = w := by
  cases host <;> simp [neBytes, leBytes_length, beBytes_length]

theorem neBytes_lt (host : Endianness) (w n : Nat) : ∀ b ∈ neBytes host w n, b < 256 := by
  cases host <;> intro b hb
  · exact leBytes_lt w n b hb
  · simp only [neBytes, beBytes, List.mem_reverse] at hb
    exact leBytes_lt w n b hb

theorem neValue_neBytes (host : Endianness) (w n : Nat) :
    neValue host (neBytes host w n) = n % 2 ^ (8 * w) := by
  cases host
  · exact leValue_leBytes w n
  · simp only [neValue, neBytes, beValue, beBytes, List.reverse_reverse]
    exact leValue_leBytes w n

theorem neBytes_neValue (host : Endianness) (l : List Nat) (hb : ∀ b ∈ l, b < 256) :
    neBytes host l.length (neValue host l) = l := by
  cases host
  · exact leBytes_leValue l hb
  · simp only [neValue, neBytes, beValue, beBytes]
    rw [← List.length_reverse l, leBytes_leValue l.reverse
      (fun x hx => hb x (List.mem_reverse.mp hx)), List.reverse_reverse]

theorem neValue_lt (host : Endianness) (l : List Nat) (hb : ∀ b ∈ l, b < 256) :
    neValue host l < 2 ^ (8 * l.length) := by
  cases host
  · exact leValue_lt l hb
  · simp only [neValue, beValue]
    rw [← List.length_reverse l]
    exact leValue_lt l.reverse (fun x hx => hb x (List.mem_reverse.mp hx))

namespace predictor

theorem fromElems_nil (host : Endianness) (w : Nat) : fromElems host w [] = [] := rfl

theorem fromElems_cons (host : Endianness) (w e : Nat) (es : List Nat) :
    fromElems host w (e :: es) = neBytes host w e ++ fromElems host w es := by
  simp [fromElems]

theorem fromElems_append (host : Endianness) (w : Nat) (a b : List Nat) :
    fromElems host w (a ++ b) = fromElems host w a ++ fromElems host w b := by
  simp [fromElems]

theorem fromElems_length (host : Endianness) (w : Nat) (es : List Nat) :
    (fromElems host w es).length = es.length * w := by
  induction es with
  | nil => simp [fromElems_nil]
  | cons e es ih =>
      rw [fromElems_cons]
      simp [neBytes_length, ih, Nat.succ_mul, Nat.add_comm]

theorem fromElems_lt (host : Endianness) (w : Nat) (es : List Nat) :
    ∀ b ∈ fromElems host w es, b < 256 := by
  induction es with
  | nil => intro b hb; simp [fromElems_nil] at hb
  | cons e es ih =>
      intro b hb
      rw [fromElems_cons] at hb
      rcases List.mem_append.mp hb with h | h
      · exact neBytes_lt host w e b h
      · exact ih b h

theorem fromElems_take (host : Endianness) (w : Nat) (es : List Nat) (k : Nat) :
    (fromElems host w es).take (k * w) = fromElems host w (es.take k) := by
  induction k generalizing es with
  | zero => simp [fromElems_nil]
  | succ k ih =>
      cases es with
      | nil => simp [fromElems_nil]
      | cons e es =>
          rw [List.take_succ_cons, fromElems_cons, fromElems_cons,
            show (k + 1) * w = (neBytes host w e).length + k * w from by
              rw [neBytes_length]; ring,
            List.take_append, ih]

theorem fromElems_drop (host : Endianness) (w : Nat) (es : List Nat) (k : Nat) :
    (fromElems host w es).drop (k * w) = fromElems host w (es.drop k) := by
  induction k generalizing es with
  | zero => simp
  | succ k ih =>
      cases es with
      | nil => simp [fromElems_nil]
      | cons e es =>
          rw [List.drop_succ_cons, fromElems_cons,
            show (k + 1) * w = (neBytes host w e).length + k * w from by
              rw [neBytes_length]; ring,
            List.drop_append, ih]

end predictor
theorem dataChunksGo_flatten (k : Nat) (hk : 0 < k) :
    ∀ fuel l, l.length ≤ fuel → (dataChunksGo k fuel l).flatten = l := by
  intro fuel
  induction fuel with
  | zero =>
      intro l hl
      have : l = [] := List.eq_nil_of_length_eq_zero (Nat.le_zero.mp hl)
      subst this; rfl
  | succ fuel ih =>
      intro l hl
      cases l with
      | nil => rfl
      | cons a l' =>
          have hstep : dataChunksGo k (fuel + 1) (a :: l')
              = (a :: l').take k :: dataChunksGo k fuel ((a :: l').drop k) := rfl
          rw [hstep, List.flatten_cons, ih _ (by simp at hl ⊢; omega),
            List.take_append_drop]

theorem flatten_dataChunks (k : Nat) (hk : 0 < k) (l : List Nat) :
    (dataChunks k l).flatten = l := by
  rw [dataChunks, if_neg (by omega)]
  exact dataChunksGo_flatten k hk l.length l le_rfl

theorem dataChunksGo_uniform (k : Nat) (hk : 0 < k) (rows : List (List Nat))
    (hr : ∀ r ∈ rows, r.length = k) :
    ∀ fuel, rows.flatten.length ≤ fuel → dataChunksGo k fuel rows.flatten = rows := by
  induction rows with
  | nil => intro fuel _; cases fuel <;> rfl
  | cons r rs ih =>
      intro fuel hl
      have hrk : r.length = k := hr r (by simp)
      cases r with
      | nil => simp at hrk; omega
      | cons a r' =>
          rw [List.flatten_cons] at hl ⊢
          cases fuel with
          | zero => simp at hl
          | succ fuel =>
              have hstep : dataChunksGo k (fuel + 1) ((a :: r') ++ rs.flatten)
                  = ((a :: r') ++ rs.flatten).take k ::
                    dataChunksGo k fuel (((a :: r') ++ rs.flatten).drop k) := rfl
              rw [hstep, show k = ((a :: r') : List Nat).length from hrk.symm,
                List.take_left, List.drop_left, hrk,
                ih (fun x hx => hr x (by simp [hx])) fuel (by simp at hl ⊢; omega)]
theorem dataChunks_flatten_uniform (k : Nat) (hk : 0 < k) (rows : List (List Nat))
    (hr : ∀ r ∈ rows, r.length = k) : dataChunks k rows.flatten = rows := by
  rw [dataChunks, if_neg (by omega)]
  exact dataChunksGo_uniform k hk rows hr _ le_rfl

theorem dataChunksGo_length_mem (k : Nat) (hk : 0 < k) :
    ∀ fuel l, k ∣ l.length → ∀ c ∈ dataChunksGo k fuel l, c.length = k := by
  intro fuel
  induction fuel with
  | zero =>
      intro l _ c hc
      cases l <;> simp [dataChunksGo] at hc
  | succ fuel ih =>
      intro l hd c hc
      cases l with
      | nil => simp [dataChunksGo] at hc
      | cons a l' =>
          have hlen : k ≤ (a :: l').length :=
            Nat.le_of_dvd (by simp) hd
          have hstep : dataChunksGo k (fuel + 1) (a :: l')
              = (a :: l').take k :: dataChunksGo k fuel ((a :: l').drop k) := rfl
          rw [hstep] at hc
          rcases List.mem_cons.mp hc with rfl | hc
          · simp [List.length_take] at hlen ⊢; omega
          · exact ih ((a :: l').drop k)
              (by simp; exact (Nat.dvd_sub' hd dvd_rfl)) c hc

theorem dataChunks_length_mem (k : Nat) (hk : 0 < k) (l : List Nat)
    (hd : k ∣ l.length) : ∀ c ∈ dataChunks k l, c.length = k := by
  rw [dataChunks, if_neg (by omega)]
  exact dataChunksGo_length_mem k hk l.length l hd

theorem dataChunksGo_mem_mem (k : Nat) :
    ∀ fuel l c, c ∈ dataChunksGo k fuel l → ∀ x ∈ c, x ∈ l := by
  intro fuel
  induction fuel with
  | zero =>
      intro l c hc
      cases l <;> simp [dataChunksGo] at hc
  | succ fuel ih =>
      intro l c hc x hx
      cases l with
      | nil => simp [dataChunksGo] at hc
      | cons a l' =>
          have hstep : dataChunksGo k (fuel + 1) (a :: l')
              = (a :: l').take k :: dataChunksGo k fuel ((a :: l').drop k) := rfl
          rw [hstep] at hc
          rcases List.mem_cons.mp hc with rfl | hc
          · exact List.take_subset k (a :: l') hx
          · exact List.drop_subset k (a :: l') (ih _ c hc x hx)

theorem dataChunks_mem_mem (k : Nat) (l c : List Nat) (hc : c ∈ dataChunks k l) :
    ∀ x ∈ c, x ∈ l := by
  by_cases hk : k = 0
  · subst hk; simp [dataChunks] at hc
  · rw [dataChunks, if_neg hk] at hc
    exact dataChunksGo_mem_mem k l.length l c hc

namespace predictor

theorem toElems_fromElems (host : Endianness) (w : Nat) (hw : 0 < w)
    (es : List Nat) (he : ∀ e ∈ es, e < 2 ^ (8 * w)) :
    toElems host w (fromElems host w es) = es := by
  rw [toElems, fromElems,
    dataChunks_flatten_uniform w hw _ (by
      intro r hr
      obtain ⟨e, _, rfl⟩ := List.mem_map.mp hr
      exact neBytes_length host w e),
    List.map_map]
  rw [List.map_congr_left (fun e he' => by
    show neValue host (neBytes host w e) = e
    rw [neValue_neBytes]
    exact Nat.mod_eq_of_lt (he e he'))]
  exact List.map_id es

theorem fromElems_toElems (host : Endianness) (w : Nat) (hw : 0 < w)
    (l : List Nat) (hd : w ∣ l.length) (hb : ∀ b ∈ l, b < 256) :
    fromElems host w (toElems host w l) = l := by
  rw [toElems, fromElems, List.map_map]
  rw [List.map_congr_left (fun c hc => by
    show neBytes host w (neValue host c) = c
    have hlen := dataChunks_length_mem w hw l hd c hc
    have hbb : ∀ b ∈ c, b < 256 := fun b hb' => hb b (dataChunks_mem_mem w l c hc b hb')
    rw [show w = c.length from hlen.symm]
    exact neBytes_neValue host c hbb)]
  rw [List.map_id']
  exact flatten_dataChunks w hw l

end predictor
theorem take_getD (l : List Nat) (m k : Nat) (h : k < m) :
    (l.take m).getD k 0 = l.getD k 0 := by
  induction l generalizing m k with
  | nil => simp
  | cons a l ih =>
      cases m with
      | zero => omega
      | succ m =>
          cases k with
          | zero => simp
          | succ k => simpa using ih m k (by omega)

theorem drop_getD (l : List Nat) (m k : Nat) :
    (l.drop m).getD k 0 = l.getD (m + k) 0 := by
  induction l generalizing m with
  | nil => simp
  | cons a l ih =>
      cases m with
      | zero => simp
      | succ m => simpa [Nat.succ_add] using ih m

theorem drop_eq_getD_cons (l : List Nat) (k : Nat) (h : k < l.length) :
    l.drop k = l.getD k 0 :: l.drop (k + 1) := by
  induction l generalizing k with
  | nil => simp at h
  | cons a l ih =>
      cases k with
      | zero => simp
      | succ k => simpa using ih k (by simpa using h)

theorem zipWith_getD (f : Nat → Nat → Nat) :
    ∀ (as bs : List Nat) (k : Nat), k < as.length → k < bs.length →
    (List.zipWith f as bs).getD k 0 = f (as.getD k 0) (bs.getD k 0) := by
  intro as
  induction as with
  | nil => intro bs k h _; simp at h
  | cons a as ih =>
      intro bs k ha hb
      cases bs with
      | nil => simp at hb
      | cons b bs =>
          cases k with
          | zero => simp
          | succ k => simpa using ih bs k (by simpa using ha) (by simpa using hb)

namespace predictor

theorem diffElems_length (s M : Nat) (es : List Nat) :
    (diffElems s M es).length = es.length := by
  simp [diffElems]; omega

theorem diffElems_take (s M : Nat) (es : List Nat) :
    (diffElems s M es).take s = es.take s := by
  rw [diffElems, List.take_append_eq_append_take, List.take_take, min_self]
  by_cases h : s ≤ es.length
  · rw [show s - (es.take s).length = 0 from by simp [List.length_take]; omega]
    simp
  · rw [show es.drop s = [] from List.drop_eq_nil_of_le (by omega)]
    simp

theorem diffElems_getD (s M : Nat) (es : List Nat) (k : Nat)
    (hs : s ≤ k) (hk : k < es.length) :
    (diffElems s M es).getD k 0
      = (es.getD k 0 + (M - es.getD (k - s) 0 % M)) % M := by
  have hsl : s ≤ es.length := le_trans hs (le_of_lt hk)
  rw [diffElems, List.getD_append_right _ _ _ _ (by simp [List.length_take]; omega),
    show k - (es.take s).length = k - s from by simp [List.length_take]; omega,
    zipWith_getD _ _ _ _ (by simp; omega) (by omega),
    drop_getD, show s + (k - s) = k from by omega]

end predictor
theorem getD_mem (l : List Nat) (k : Nat) (h : k < l.length) : l.getD k 0 ∈ l := by
  induction l generalizing k with
  | nil => simp at h
  | cons a l ih =>
      cases k with
      | zero => simp
      | succ k =>
          simp only [List.getD_cons_succ]
          exact List.mem_cons_of_mem a (ih k (by simpa using h))

theorem take_append_len (l l' : List Nat) (w : Nat) (h : l.length = w) :
    (l ++ l').take w = l := by
  rw [← h, List.take_left]

namespace predictor

theorem revDiffLoop_restore (host : Endianness) (w s : Nat) (hw : 0 < w) (hs : 0 < s)
    (es : List Nat) (hb : ∀ x ∈ es, x < 2 ^ (8 * w)) :
    ∀ fuel k, s ≤ k → es.length - k ≤ fuel →
    revDiffLoop host w s fuel
      (fromElems host w (es.take k ++ (diffElems s (2 ^ (8 * w)) es).drop k)) (k * w)
      = fromElems host w es := by
  intro fuel
  induction fuel with
  | zero =>
      intro k hsk hfuel
      rw [List.take_of_length_le (by omega),
        List.drop_eq_nil_of_le (by rw [diffElems_length]; omega),
        List.append_nil]
      rfl
  | succ fuel ih =>
      intro k hsk hfuel
      by_cases hnk : es.length ≤ k
      · rw [List.take_of_length_le hnk,
          List.drop_eq_nil_of_le (by rw [diffElems_length]; omega),
          List.append_nil, revDiffLoop,
          if_pos (by rw [fromElems_length]; exact Nat.mul_le_mul_right w hnk)]
      · push_neg at hnk
        have hM : 0 < 2 ^ (8 * w) := pow_pos (by omega) _
        have hdlen : (diffElems s (2 ^ (8 * w)) es).length = es.length :=
          diffElems_length _ _ _
        have htklen : (es.take k).length = k := by simp [List.length_take]; omega
        have hLlen : (es.take k ++ (diffElems s (2 ^ (8 * w)) es).drop k).length
            = es.length := by
          simp only [List.length_append, List.length_take, List.length_drop, hdlen]
          omega
        have hdk : (diffElems s (2 ^ (8 * w)) es).getD k 0
            = (es.getD k 0 + (2 ^ (8 * w) - es.getD (k - s) 0 % 2 ^ (8 * w)))
              % 2 ^ (8 * w) :=
          diffElems_getD _ _ _ _ hsk hnk
        have hexk : es.getD k 0 < 2 ^ (8 * w) := hb _ (getD_mem es k hnk)
        have hslice1 : listSlice
              (fromElems host w (es.take k ++ (diffElems s (2 ^ (8 * w)) es).drop k))
              (k * w) (k * w + w)
            = neBytes host w ((diffElems s (2 ^ (8 * w)) es).getD k 0) := by
          rw [listSlice, Nat.add_sub_cancel_left, fromElems_drop,
            show (es.take k ++ (diffElems s (2 ^ (8 * w)) es).drop k).drop k
                = (diffElems s (2 ^ (8 * w)) es).drop k from by
              nth_rewrite 1 [show k = (es.take k).length from htklen.symm]
              exact List.drop_left _ _,
            drop_eq_getD_cons _ k (by omega), fromElems_cons]
          exact take_append_len _ _ _ (neBytes_length _ _ _)
        have hslice2 : listSlice
              (fromElems host w (es.take k ++ (diffElems s (2 ^ (8 * w)) es).drop k))
              (k * w - s * w) (k * w - s * w + w)
            = neBytes host w (es.getD (k - s) 0) := by
          rw [listSlice, Nat.add_sub_cancel_left, ← Nat.sub_mul, fromElems_drop,
            List.drop_append_eq_append_drop,
            show k - s - (es.take k).length = 0 from by rw [htklen]; omega,
            List.drop_zero,
            drop_eq_getD_cons (es.take k) (k - s) (by rw [htklen]; omega),
            take_getD es k (k - s) (by omega),
            List.cons_append, fromElems_cons]
          exact take_append_len _ _ _ (neBytes_length _ _ _)
        have htake : (fromElems host w
              (es.take k ++ (diffElems s (2 ^ (8 * w)) es).drop k)).take (k * w)
            = fromElems host w (es.take k) := by
          rw [fromElems_take, List.take_append_eq_append_take, List.take_take,
            min_self, show k - (es.take k).length = 0 from by rw [htklen]; omega,
            List.take_zero, List.append_nil]
        have hdrop : (fromElems host w
              (es.take k ++ (diffElems s (2 ^ (8 * w)) es).drop k)).drop (k * w + w)
            = fromElems host w ((diffElems s (2 ^ (8 * w)) es).drop (k + 1)) := by
          rw [show k * w + w = (k + 1) * w from by ring, fromElems_drop,
            List.drop_append_eq_append_drop,
            List.drop_eq_nil_of_le (by rw [htklen]; omega),
            show k + 1 - (es.take k).length = 1 from by rw [htklen]; omega,
            List.nil_append, List.drop_drop]
        have hval : (neValue host
              (neBytes host w ((diffElems s (2 ^ (8 * w)) es).getD k 0))
              + neValue host (neBytes host w (es.getD (k - s) 0))) % 2 ^ (8 * w)
            = es.getD k 0 := by
          rw [neValue_neBytes, neValue_neBytes, ← Nat.add_mod, hdk]
          exact add_sub_mod_cancel _ _ _ hM hexk
        have htk1 : es.take (k + 1) = es.take k ++ [es.getD k 0] := by
          rw [List.take_succ, List.getElem?_eq_getElem hnk,
            List.getD_eq_getElem es 0 hnk]
          rfl
        have hassemble : fromElems host w (es.take k)
              ++ neBytes host w (es.getD k 0)
              ++ fromElems host w ((diffElems s (2 ^ (8 * w)) es).drop (k + 1))
            = fromElems host w
              (es.take (k + 1) ++ (diffElems s (2 ^ (8 * w)) es).drop (k + 1)) := by
          rw [htk1, fromElems_append, fromElems_append, fromElems_cons,
            fromElems_nil, List.append_nil]
        rw [revDiffLoop, if_neg (by
          rw [fromElems_length, hLlen]
          intro hcon
          have := Nat.le_of_mul_le_mul_right hcon hw
          omega)]
        simp only []
        rw [hslice1, hslice2, hval, htake, hdrop, hassemble,
          show k * w + w = (k + 1) * w from by ring]
        exact ih (k + 1) (by omega) (by omega)

end predictor
theorem drop_append_len (l l' : List Nat) (w : Nat) (h : l.length = w) :
    (l ++ l').drop w = l' := by
  rw [← h, List.drop_left]

theorem chunksExactGo_length (w : Nat) (f : List Nat → List Nat)
    (hflen : ∀ c, c.length = w → (f c).length = w) :
    ∀ fuel l, (chunksExactGo w f fuel l).length = l.length := by
  intro fuel
  induction fuel with
  | zero => intro l; rfl
  | succ fuel ih =>
      intro l
      rw [chunksExactGo]
      split
      · rfl
      · rename_i hc
        push_neg at hc
        simp only [List.length_append, ih]
        rw [hflen _ (by simp [List.length_take]; omega)]
        simp only [List.length_drop]
        omega

theorem chunksExactGo_lt (w : Nat) (f : List Nat → List Nat)
    (hfb : ∀ c, c.length = w → (∀ b ∈ c, b < 256) → ∀ b ∈ f c, b < 256) :
    ∀ fuel l, (∀ b ∈ l, b < 256) → ∀ b ∈ chunksExactGo w f fuel l, b < 256 := by
  intro fuel
  induction fuel with
  | zero => intro l hb; exact hb
  | succ fuel ih =>
      intro l hb
      rw [chunksExactGo]
      split
      · exact hb
      · rename_i hc
        push_neg at hc
        intro b hmem
        rcases List.mem_append.mp hmem with h | h
        · exact hfb _ (by simp [List.length_take]; omega)
            (fun x hx => hb x (List.take_subset _ _ hx)) b h
        · exact ih _ (fun x hx => hb x (List.drop_subset _ _ hx)) b h

theorem chunksExactGo_invol (w : Nat) (hw : 0 < w) (f : List Nat → List Nat)
    (hflen : ∀ c, c.length = w → (f c).length = w)
    (hfb : ∀ c, c.length = w → (∀ b ∈ c, b < 256) → ∀ b ∈ f c, b < 256)
    (hff : ∀ c, c.length = w → (∀ b ∈ c, b < 256) → f (f c) = c) :
    ∀ fuel l, l.length ≤ fuel → (∀ b ∈ l, b < 256) →
      chunksExactGo w f fuel (chunksExactGo w f fuel l) = l := by
  intro fuel
  induction fuel with
  | zero => intro l _ _; rfl
  | succ fuel ih =>
      intro l hl hb
      by_cases hc : l.length < w ∨ w = 0
      · have hin : chunksExactGo w f (fuel + 1) l = l := by
          rw [chunksExactGo, if_pos hc]
        rw [hin]
        exact hin
      · rw [not_or] at hc
        obtain ⟨hwl, -⟩ := hc
        rw [not_lt] at hwl
        have htw : (l.take w).length = w := by simp [List.length_take]; omega
        have htb : ∀ b ∈ l.take w, b < 256 := fun x hx => hb x (List.take_subset _ _ hx)
        have hin : chunksExactGo w f (fuel + 1) l
            = f (l.take w) ++ chunksExactGo w f fuel (l.drop w) := by
          rw [chunksExactGo, if_neg (by push_neg; exact ⟨by omega, by omega⟩)]
        rw [hin, chunksExactGo, if_neg (by
          push_neg
          constructor
          · simp only [List.length_append, hflen _ htw,
              chunksExactGo_length w f hflen]
            simp only [List.length_drop]
            omega
          · omega)]
        rw [take_append_len _ _ _ (hflen _ htw), drop_append_len _ _ _ (hflen _ htw),
          hff _ htw htb,
          ih _ (by simp only [List.length_drop]; omega)
            (fun x hx => hb x (List.drop_subset _ _ hx)),
          List.take_append_drop]

theorem chunksExactMap_invol (w : Nat) (hw : 0 < w) (f : List Nat → List Nat)
    (hflen : ∀ c, c.length = w → (f c).length = w)
    (hfb : ∀ c, c.length = w → (∀ b ∈ c, b < 256) → ∀ b ∈ f c, b < 256)
    (hff : ∀ c, c.length = w → (∀ b ∈ c, b < 256) → f (f c) = c)
    (l : List Nat) (hb : ∀ b ∈ l, b < 256) :
    chunksExactMap w f (chunksExactMap w f l) = l := by
  rw [chunksExactMap, chunksExactMap, chunksExactGo_length w f hflen]
  exact chunksExactGo_invol w hw f hflen hfb hff l.length l le_rfl hb

theorem fix_endianness_invol (host : Endianness) (l : List Nat) (bo : Endianness)
    (d : Nat) (hb : ∀ b ∈ l, b < 256) :
    fix_endianness host (fix_endianness host l bo d) bo d = l := by
  by_cases hbo : bo = host
  · have hid : ∀ x : List Nat, fix_endianness host x bo d = x := by
      intro x; rw [fix_endianness.eq_def, if_pos hbo]
    rw [hid, hid]
  · have hswap : ∀ w : Nat, 0 < w → ∀ g : List Nat → Nat,
        (∀ c : List Nat, c.length = w → (∀ b ∈ c, b < 256) →
          neBytes host w (g c) = c.reverse) →
        chunksExactMap w (fun v => neBytes host w (g v))
          (chunksExactMap w (fun v => neBytes host w (g v)) l) = l := by
      intro w hw g hg
      exact chunksExactMap_invol w hw _
        (fun c _ => neBytes_length host w (g c))
        (fun c _ _ => neBytes_lt host w (g c))
        (fun c hc hcb => by
          rw [hg c hc hcb,
            hg c.reverse (by simp [hc])
              (fun x hx => hcb x (List.mem_reverse.mp hx)),
            List.reverse_reverse])
        l hb
    have hle : host = Endianness.bigEndian → ∀ c : List Nat, ∀ w, c.length = w →
        (∀ b ∈ c, b < 256) → neBytes host w (leValue c) = c.reverse := by
      intro hh c w hc hcb
      subst hh
      show beBytes w (leValue c) = c.reverse
      rw [beBytes, ← hc, leBytes_leValue c hcb]
    have hbe : host = Endianness.littleEndian → ∀ c : List Nat, ∀ w, c.length = w →
        (∀ b ∈ c, b < 256) → neBytes host w (beValue c) = c.reverse := by
      intro hh c w hc hcb
      subst hh
      show leBytes w (beValue c) = c.reverse
      rw [beValue, show w = c.reverse.length from by simp [hc],
        leBytes_leValue c.reverse (fun x hx => hcb x (List.mem_reverse.mp hx))]
    cases bo with
    | littleEndian =>
        have hh : host = Endianness.bigEndian := by
          cases host
          · exact absurd rfl hbo
          · rfl
        have hx : ∀ x : List Nat, fix_endianness host x Endianness.littleEndian d
            = if d ≤ 8 then x
              else if d ≤ 16 then
                chunksExactMap 2 (fun v => neBytes host 2 (leValue v)) x
              else if d ≤ 32 then
                chunksExactMap 4 (fun v => neBytes host 4 (leValue v)) x
              else chunksExactMap 8 (fun v => neBytes host 8 (leValue v)) x := by
          intro x
          rw [fix_endianness.eq_def, if_neg hbo]
        rw [hx, hx]
        by_cases h8 : d ≤ 8
        · rw [if_pos h8, if_pos h8]
        · rw [if_neg h8, if_neg h8]
          by_cases h16 : d ≤ 16
          · rw [if_pos h16, if_pos h16]
            exact hswap 2 (by omega) leValue (fun c hc hcb => hle hh c 2 hc hcb)
          · rw [if_neg h16, if_neg h16]
            by_cases h32 : d ≤ 32
            · rw [if_pos h32, if_pos h32]
              exact hswap 4 (by omega) leValue (fun c hc hcb => hle hh c 4 hc hcb)
            · rw [if_neg h32, if_neg h32]
              exact hswap 8 (by omega) leValue (fun c hc hcb => hle hh c 8 hc hcb)
    | bigEndian =>
        have hh : host = Endianness.littleEndian := by
          cases host
          · rfl
          · exact absurd rfl hbo
        have hx : ∀ x : List Nat, fix_endianness host x Endianness.bigEndian d
            = if d ≤ 8 then x
              else if d ≤ 16 then
                chunksExactMap 2 (fun v => neBytes host 2 (beValue v)) x
              else if d ≤ 32 then
                chunksExactMap 4 (fun v => neBytes host 4 (beValue v)) x
              else chunksExactMap 8 (fun v => neBytes host 8 (beValue v)) x := by
          intro x
          rw [fix_endianness.eq_def, if_neg hbo]
        rw [hx, hx]
        by_cases h8 : d ≤ 8
        · rw [if_pos h8, if_pos h8]
        · rw [if_neg h8, if_neg h8]
          by_cases h16 : d ≤ 16
          · rw [if_pos h16, if_pos h16]
            exact hswap 2 (by omega) beValue (fun c hc hcb => hbe hh c 2 hc hcb)
          · rw [if_neg h16, if_neg h16]
            by_cases h32 : d ≤ 32
            · rw [if_pos h32, if_pos h32]
              exact hswap 4 (by omega) beValue (fun c hc hcb => hbe hh c 4 hc hcb)
            · rw [if_neg h32, if_neg h32]
              exact hswap 8 (by omega) beValue (fun c hc hcb => hbe hh c 8 hc hcb)
theorem mapM_ok_of_pointwise (f : List Nat → Except Fail (List Nat))
    (g : List Nat → List Nat) (rows : List (List Nat))
    (h : ∀ r ∈ rows, f (g r) = .ok r) :
    (rows.map g).mapM f = .ok rows := by
  induction rows with
  | nil => rfl
  | cons r rs ih =>
      rw [List.map_cons, List.mapM_cons, h r (by simp),
        ih (fun x hx => h x (by simp [hx]))]
      rfl

namespace predictor

theorem row_hdiff_roundtrip (host : Endianness) (w s : Nat) (hw : 0 < w) (hs : 0 < s)
    (row : List Nat) (hd : w ∣ row.length) (hb : ∀ b ∈ row, b < 256) :
    revDiffLoop host w s (forwardDiffRow host w s row).length
      (forwardDiffRow host w s row) (s * w) = row := by
  have hbes : ∀ e ∈ toElems host w row, e < 2 ^ (8 * w) := by
    intro e he
    obtain ⟨c, hc, rfl⟩ := List.mem_map.mp he
    have hlen := dataChunks_length_mem w hw row hd c hc
    have hv := neValue_lt host c
      (fun b hb' => hb b (dataChunks_mem_mem w row c hc b hb'))
    rwa [hlen] at hv
  have hsplit : (toElems host w row).take s
        ++ (diffElems s (2 ^ (8 * w)) (toElems host w row)).drop s
      = diffElems s (2 ^ (8 * w)) (toElems host w row) := by
    rw [← diffElems_take]
    exact List.take_append_drop s _
  have hbuf : fromElems host w ((toElems host w row).take s
        ++ (diffElems s (2 ^ (8 * w)) (toElems host w row)).drop s)
      = fromElems host w (diffElems s (2 ^ (8 * w)) (toElems host w row)) := by
    rw [hsplit]
  have hrt := revDiffLoop_restore host w s hw hs (toElems host w row) hbes
    (fromElems host w (diffElems s (2 ^ (8 * w)) (toElems host w row))).length
    s le_rfl (by
      rw [fromElems_length, diffElems_length]
      have h1 : (toElems host w row).length ≤ (toElems host w row).length * w :=
        Nat.le_mul_of_pos_right _ hw
      omega)
  rw [hbuf, fromElems_toElems host w hw row hd hb] at hrt
  rw [forwardDiffRow]
  exact hrt

theorem forwardDiffRow_length (host : Endianness) (w s : Nat) (hw : 0 < w)
    (row : List Nat) (hd : w ∣ row.length) (hb : ∀ b ∈ row, b < 256) :
    (forwardDiffRow host w s row).length = row.length := by
  have h := congrArg List.length (fromElems_toElems host w hw row hd hb)
  rw [fromElems_length] at h
  rw [forwardDiffRow, fromElems_length, diffElems_length, h]

theorem forwardDiffRow_lt (host : Endianness) (w s : Nat) (row : List Nat) :
    ∀ b ∈ forwardDiffRow host w s row, b < 256 := by
  rw [forwardDiffRow]
  exact fromElems_lt host w _

theorem rev_hpredict_nsamp_forwardDiff (host : Endianness) (s bit_depth : Nat)
    (hs : 0 < s) (hbd : bit_depth ≤ 64) (row : List Nat)
    (hd : depthBytes bit_depth ∣ row.length) (hb : ∀ b ∈ row, b < 256) :
    rev_hpredict_nsamp host (forwardDiffRow host (depthBytes bit_depth) s row)
      bit_depth s = .ok row := by
  by_cases h8 : bit_depth ≤ 8
  · have hwv : depthBytes bit_depth = 1 := by rw [depthBytes, if_pos h8]
    rw [hwv] at hd ⊢
    rw [rev_hpredict_nsamp, if_pos h8,
      row_hdiff_roundtrip host 1 s (by omega) hs row hd hb]
  · by_cases h16 : bit_depth ≤ 16
    · have hwv : depthBytes bit_depth = 2 := by
        rw [depthBytes, if_neg h8, if_pos h16]
      rw [hwv] at hd ⊢
      rw [rev_hpredict_nsamp, if_neg h8, if_pos h16,
        row_hdiff_roundtrip host 2 s (by omega) hs row hd hb]
    · by_cases h32 : bit_depth ≤ 32
      · have hwv : depthBytes bit_depth = 4 := by
          rw [depthBytes, if_neg h8, if_neg h16, if_pos h32]
        rw [hwv] at hd ⊢
        rw [rev_hpredict_nsamp, if_neg h8, if_neg h16, if_pos h32,
          row_hdiff_roundtrip host 4 s (by omega) hs row hd hb]
      · have hwv : depthBytes bit_depth = 8 := by
          rw [depthBytes, if_neg h8, if_neg h16, if_neg h32]
        rw [hwv] at hd ⊢
        rw [rev_hpredict_nsamp, if_neg h8, if_neg h16, if_neg h32, if_pos hbd,
          row_hdiff_roundtrip host 8 s (by omega) hs row hd hb]

theorem output_row_stride_dvd (info : PredictorInfo) (tile_x stride W : Nat)
    (hbits : info.bits_per_sample = 8 * W)
    (h : info.output_row_stride tile_x = .ok stride) : W ∣ stride := by
  rw [PredictorInfo.output_row_stride] at h
  simp only [bind, Except.bind, pure, Except.pure] at h
  split at h
  · exact Except.noConfusion h
  · injection h with h2
    subst h2
    rw [PredictorInfo.bits_per_pixel, hbits]
    rename_i cwp heq
    cases info.planar_configuration
    · rw [show cwp * (8 * W * info.samples_per_pixel)
          = 8 * (cwp * (W * info.samples_per_pixel)) from by ring,
        Nat.mul_div_cancel_left _ (by omega)]
      exact ⟨cwp * info.samples_per_pixel, by ring⟩
    · rw [show cwp * (8 * W) = 8 * (cwp * W) from by ring,
        Nat.mul_div_cancel_left _ (by omega)]
      exact ⟨cwp, by ring⟩

end predictor
namespace predictor

theorem depthBytes_pos (x : Nat) : 0 < depthBytes x := by
  rw [depthBytes]
  repeat' split
  all_goals omega

theorem depthBytes_le8 (x : Nat) : depthBytes x ≤ 8 := by
  rw [depthBytes]
  repeat' split
  all_goals omega

theorem hdiff_roundtrip (host : Endianness) (info : PredictorInfo) (tile_x : Nat)
    (buffer enc : List Nat) (stride : Nat)
    (hstride : info.output_row_stride tile_x = .ok stride) (hpos : 0 < stride)
    (hdvd : stride ∣ buffer.length)
    (hbits : info.bits_per_sample = 8 * depthBytes info.bits_per_sample)
    (hs : 0 < info.samples_per_pixel)
    (hb : ∀ b ∈ buffer, b < 256)
    (henc : predict_hdiff host buffer info tile_x = .ok enc) :
    unpredict_hdiff host enc info tile_x = .ok buffer := by
  rw [predict_hdiff] at henc
  simp only [hstride, bind, Except.bind, pure, Except.pure] at henc
  injection henc with henc
  have hwpos : 0 < depthBytes info.bits_per_sample := depthBytes_pos _
  have hwdvd : depthBytes info.bits_per_sample ∣ stride :=
    output_row_stride_dvd info tile_x stride _ hbits hstride
  have hrows : ∀ r ∈ dataChunks stride buffer, r.length = stride :=
    dataChunks_length_mem stride hpos buffer hdvd
  have hrowsb : ∀ r ∈ dataChunks stride buffer, ∀ b ∈ r, b < 256 :=
    fun r hr b hbr => hb b (dataChunks_mem_mem stride buffer r hr b hbr)
  rw [unpredict_hdiff]
  simp only [hstride, bind, Except.bind, pure, Except.pure]
  rw [← henc, fix_endianness_invol host _ info.endianness info.bits_per_sample (by
    intro b hbmem
    obtain ⟨r, hr, hbr⟩ := List.mem_flatten.mp hbmem
    obtain ⟨r0, _, rfl⟩ := List.mem_map.mp hr
    exact forwardDiffRow_lt host _ info.samples_per_pixel r0 b hbr)]
  rw [dataChunks_flatten_uniform stride hpos _ (by
    intro r hr
    obtain ⟨r0, hr0, rfl⟩ := List.mem_map.mp hr
    rw [forwardDiffRow_length host _ info.samples_per_pixel hwpos r0
      (by rw [hrows r0 hr0]; exact hwdvd) (hrowsb r0 hr0)]
    exact hrows r0 hr0)]
  rw [mapM_ok_of_pointwise _ _ _ (fun r hr =>
    rev_hpredict_nsamp_forwardDiff host info.samples_per_pixel
      info.bits_per_sample hs
      (by have := depthBytes_le8 info.bits_per_sample; omega)
      r (by rw [hrows r hr]; exact hwdvd) (hrowsb r hr))]
  show Except.ok (dataChunks stride buffer).flatten = Except.ok buffer
  rw [flatten_dataChunks stride hpos buffer]

end predictor
theorem getD_default (L : List Nat) (p : Nat) (h : L.length ≤ p) : L.getD p 0 = 0 := by
  induction L generalizing p with
  | nil => simp
  | cons a l ih =>
      cases p with
      | zero => simp at h
      | succ p =>
          simp only [List.getD_cons_succ]
          exact ih p (by simpa using h)

theorem getD_lt (L : List Nat) (p : Nat) (h : ∀ x ∈ L, x < 256) : L.getD p 0 < 256 := by
  by_cases hp : p < L.length
  · exact h _ (getD_mem L p hp)
  · rw [getD_default _ _ (by omega)]; omega

theorem flatten_uniform_length (planes : List (List Nat)) (n : Nat)
    (hall : ∀ pl ∈ planes, pl.length = n) :
    planes.flatten.length = planes.length * n := by
  induction planes with
  | nil => simp
  | cons pl pls ih =>
      rw [List.flatten_cons, List.length_append, hall pl (by simp),
        ih (fun x hx => hall x (by simp [hx])), List.length_cons]
      ring

theorem flatten_uniform_getD (planes : List (List Nat)) (n : Nat)
    (hall : ∀ pl ∈ planes, pl.length = n) (p i : Nat)
    (hp : p < planes.length) (hi : i < n) :
    planes.flatten.getD (n * p + i) 0 = (planes.getD p []).getD i 0 := by
  induction planes generalizing p with
  | nil => simp at hp
  | cons pl pls ih =>
      cases p with
      | zero =>
          simp only [Nat.mul_zero, Nat.zero_add, List.flatten_cons, List.getD_cons_zero]
          rw [List.getD_append _ _ _ _ (by rw [hall pl (by simp)]; exact hi)]
      | succ p =>
          rw [List.flatten_cons,
            List.getD_append_right _ _ _ _ (by
              rw [hall pl (by simp)]
              calc n ≤ n * (p + 1) := Nat.le_mul_of_pos_right n (by omega)
                _ ≤ n * (p + 1) + i := Nat.le_add_right _ _),
            hall pl (by simp),
            show n * (p + 1) + i - n = n * p + i from by ring_nf; omega,
            List.getD_cons_succ]
          exact ih (fun x hx => hall x (by simp [hx])) p (by simpa using hp)

theorem range_map_getD (f : Nat → List Nat) (w p : Nat) (hp : p < w) :
    ((List.range w).map f).getD p [] = f p := by
  rw [List.getD_eq_getElem _ _ (by simp [hp])]
  simp

theorem map_getD (f : Nat → Nat) (l : List Nat) (i : Nat) (h : i < l.length) :
    (l.map f).getD i 0 = f (l.getD i 0) := by
  rw [List.getD_eq_getElem _ _ (by simpa using h), List.getD_eq_getElem _ _ h]
  simp

theorem range_map_getD_self (L : List Nat) :
    (List.range L.length).map (fun p => L.getD p 0) = L := by
  apply List.ext_getElem (by simp)
  intro i h1 h2
  simp only [List.getElem_map, List.getElem_range]
  rw [List.getD_eq_getElem _ _ h2]

theorem range_map_getD_map (g : Nat → List Nat) (l : List Nat) :
    (List.range l.length).map (fun i => g (l.getD i 0)) = l.map g := by
  apply List.ext_getElem (by simp)
  intro i h1 h2
  simp only [List.getElem_map, List.getElem_range]
  rw [List.getD_eq_getElem _ _ (by simpa using h1)]

theorem beValue_beBytes (w n : Nat) : beValue (beBytes w n) = n % 2 ^ (8 * w) := by
  rw [beValue, beBytes, List.reverse_reverse, leValue_leBytes]

namespace predictor

theorem toElems_lt (host : Endianness) (w : Nat) (hw : 0 < w) (l : List Nat)
    (hd : w ∣ l.length) (hb : ∀ b ∈ l, b < 256) :
    ∀ e ∈ toElems host w l, e < 2 ^ (8 * w) := by
  intro e he
  obtain ⟨c, hc, rfl⟩ := List.mem_map.mp he
  have hlen := dataChunks_length_mem w hw l hd c hc
  have hv := neValue_lt host c
    (fun b hb' => hb b (dataChunks_mem_mem w l c hc b hb'))
  rwa [hlen] at hv

theorem toElems_length_mul (host : Endianness) (w : Nat) (hw : 0 < w) (l : List Nat)
    (hd : w ∣ l.length) (hb : ∀ b ∈ l, b < 256) :
    (toElems host w l).length * w = l.length := by
  have h := congrArg List.length (fromElems_toElems host w hw l hd hb)
  rwa [fromElems_length] at h

theorem shuffleRow_length (host : Endianness) (w : Nat) (r : List Nat) :
    (shuffleRow host w r).length = w * (toElems host w r).length := by
  rw [shuffleRow]
  rw [flatten_uniform_length _ (toElems host w r).length (by
    intro pl hpl
    obtain ⟨p, _, rfl⟩ := List.mem_map.mp hpl
    simp)]
  simp

theorem shuffleRow_lt (host : Endianness) (w : Nat) (r : List Nat) :
    ∀ b ∈ shuffleRow host w r, b < 256 := by
  intro b hb
  rw [shuffleRow] at hb
  obtain ⟨pl, hpl, hbpl⟩ := List.mem_flatten.mp hb
  obtain ⟨p, _, rfl⟩ := List.mem_map.mp hpl
  obtain ⟨v, _, rfl⟩ := List.mem_map.mp hbpl
  exact getD_lt _ p (fun x hx => by
    rw [beBytes] at hx
    exact leBytes_lt w v x (List.mem_reverse.mp hx))

theorem rev_predict_fw_roundtrip (host : Endianness) (w s : Nat) (hw : 0 < w)
    (hs : 0 < s) (r output : List Nat) (hd : w ∣ r.length)
    (hb : ∀ b ∈ r, b < 256) (hout : output.length = r.length) :
    rev_predict_fw host w (forwardDiffRow host 1 s (shuffleRow host w r))
      output s = r := by
  have helems := toElems_lt host w hw r hd hb
  have hrlen := toElems_length_mul host w hw r hd hb
  have hshb := shuffleRow_lt host w r
  have hshlen := shuffleRow_length host w r
  rw [rev_predict_fw]
  rw [row_hdiff_roundtrip host 1 s (by omega) hs (shuffleRow host w r)
    (one_dvd _) hshb]
  rw [hout, hshlen,
    show r.length = (toElems host w r).length * w from hrlen.symm,
    Nat.mul_div_cancel _ hw, Nat.mul_div_cancel_left _ hw]
  rw [List.map_congr_left (fun i hi => by
    show neBytes host w (beValue ((List.range w).map
      (fun p => (shuffleRow host w r).getD ((toElems host w r).length * p + i) 0)))
      = neBytes host w ((toElems host w r).getD i 0)
    have hiLt : i < (toElems host w r).length := List.mem_range.mp hi
    rw [List.map_congr_left (fun p hp => by
      show (shuffleRow host w r).getD ((toElems host w r).length * p + i) 0
        = (beBytes w ((toElems host w r).getD i 0)).getD p 0
      have hpLt : p < w := List.mem_range.mp hp
      rw [shuffleRow]
      rw [flatten_uniform_getD _ (toElems host w r).length (by
          intro pl hpl
          obtain ⟨q, _, rfl⟩ := List.mem_map.mp hpl
          simp) p i (by simpa using hpLt) hiLt,
        range_map_getD _ w p hpLt,
        map_getD _ _ i hiLt])]
    rw [show (List.range w) = List.range (beBytes w
        ((toElems host w r).getD i 0)).length from by rw [beBytes_length],
      range_map_getD_self,
      beValue_beBytes,
      Nat.mod_eq_of_lt (helems _ (getD_mem _ i hiLt))])]
  rw [range_map_getD_map (fun e => neBytes host w e) (toElems host w r),
    show (toElems host w r).map (fun e => neBytes host w e)
      = (toElems host w r).map (neBytes host w) from rfl]
  rw [show ((toElems host w r).map (neBytes host w)).flatten
      = fromElems host w (toElems host w r) from rfl,
    fromElems_toElems host w hw r hd hb,
    show (toElems host w r).length * w = output.length from by rw [hrlen, hout],
    List.drop_length, List.append_nil]

end predictor
theorem replicate_flatten (m k : Nat) :
    (List.replicate m (List.replicate k (0 : Nat))).flatten
      = List.replicate (m * k) 0 := by
  induction m with
  | zero => simp
  | succ m ih =>
      rw [List.replicate_succ, List.flatten_cons, ih,
        show (m + 1) * k = k + m * k from by ring, ← List.replicate_add]

theorem dataChunks_replicate (k m : Nat) (hk : 0 < k) :
    dataChunks k (List.replicate (m * k) (0 : Nat))
      = List.replicate m (List.replicate k 0) := by
  rw [← replicate_flatten m k]
  exact dataChunks_flatten_uniform k hk _ (by
    intro r hr
    rw [List.eq_of_mem_replicate hr]
    simp)

theorem mapM_zip_ok (f : List Nat × List Nat → Except Fail (List Nat))
    (g : List Nat → List Nat) (z : List Nat) (rows : List (List Nat))
    (h : ∀ r ∈ rows, f (g r, z) = .ok r) :
    ((rows.map g).zip (List.replicate rows.length z)).mapM f = .ok rows := by
  induction rows with
  | nil => rfl
  | cons r rs ih =>
      rw [List.map_cons, List.length_cons, List.replicate_succ, List.zip_cons_cons,
        List.mapM_cons, h r (by simp), ih (fun x hx => h x (by simp [hx]))]
      rfl

theorem dataChunks_count (k : Nat) (hk : 0 < k) (l : List Nat) (m : Nat)
    (hm : l.length = k * m) : (dataChunks k l).length = m := by
  have hflat := flatten_dataChunks k hk l
  have hdvd : k ∣ l.length := ⟨m, hm⟩
  have huni := dataChunks_length_mem k hk l hdvd
  have hlen := flatten_uniform_length (dataChunks k l) k huni
  rw [hflat, hm] at hlen
  have h2 : m * k = (dataChunks k l).length * k := by
    rw [Nat.mul_comm m k]; exact hlen
  exact (Nat.eq_of_mul_eq_mul_right hk h2).symm
namespace predictor

theorem float_roundtrip (host : Endianness) (info : PredictorInfo) (tile_x : Nat)
    (buffer enc : List Nat) (stride cwp : Nat)
    (hcwp : info.chunk_width_pixels tile_x = .ok cwp)
    (hstride : info.output_row_stride tile_x = .ok stride) (hpos : 0 < stride)
    (hdvd : stride ∣ buffer.length)
    (hbits : info.bits_per_sample = 8 * depthBytes info.bits_per_sample)
    (hb16 : 8 < info.bits_per_sample)
    (hspp : info.samples_per_pixel = 1)
    (hle : cwp ≤ info.chunk_width)
    (hb : ∀ b ∈ buffer, b < 256)
    (henc : predict_float host buffer info tile_x = .ok enc) :
    unpredict_float host enc (List.replicate buffer.length 0) info tile_x
      = .ok buffer := by
  have hwpos : 0 < depthBytes info.bits_per_sample := depthBytes_pos _
  have hWdvd : depthBytes info.bits_per_sample ∣ stride :=
    output_row_stride_dvd info tile_x stride _ hbits hstride
  have hstrideEq : stride = cwp * depthBytes info.bits_per_sample := by
    have hst2 := hstride
    rw [PredictorInfo.output_row_stride] at hst2
    simp only [hcwp, bind, Except.bind, pure, Except.pure] at hst2
    injection hst2 with hst2
    simp only [PredictorInfo.bits_per_pixel] at hst2
    cases hpc : info.planar_configuration
    · simp only [hpc] at hst2
      rw [hspp, Nat.mul_one, hbits] at hst2
      rw [show cwp * (8 * depthBytes info.bits_per_sample)
          = 8 * (cwp * depthBytes info.bits_per_sample) from by ring,
        Nat.mul_div_cancel_left _ (by omega)] at hst2
      exact hst2.symm
    · simp only [hpc] at hst2
      rw [hbits] at hst2
      rw [show cwp * (8 * depthBytes info.bits_per_sample)
          = 8 * (cwp * depthBytes info.bits_per_sample) from by ring,
        Nat.mul_div_cancel_left _ (by omega)] at hst2
      exact hst2.symm
  have hfull : info.chunk_width * info.bits_per_sample / 8
      = info.chunk_width * depthBytes info.bits_per_sample := by
    nth_rewrite 1 [hbits]
    rw [show info.chunk_width * (8 * depthBytes info.bits_per_sample)
        = 8 * (info.chunk_width * depthBytes info.bits_per_sample) from by ring,
      Nat.mul_div_cancel_left _ (by omega)]
  have hbitcase : (info.bits_per_sample = 16 ∧ depthBytes info.bits_per_sample = 2)
      ∨ (info.bits_per_sample = 32 ∧ depthBytes info.bits_per_sample = 4)
      ∨ (info.bits_per_sample = 64 ∧ depthBytes info.bits_per_sample = 8) := by
    by_cases h16 : info.bits_per_sample ≤ 16
    · have hw2 : depthBytes info.bits_per_sample = 2 := by
        rw [depthBytes, if_neg (by omega), if_pos h16]
      exact Or.inl ⟨by rw [hbits, hw2], hw2⟩
    · by_cases h32 : info.bits_per_sample ≤ 32
      · have hw4 : depthBytes info.bits_per_sample = 4 := by
          rw [depthBytes, if_neg (by omega), if_neg (by omega), if_pos h32]
        exact Or.inr (Or.inl ⟨by rw [hbits, hw4], hw4⟩)
      · have hw8 : depthBytes info.bits_per_sample = 8 := by
          rw [depthBytes, if_neg (by omega), if_neg (by omega), if_neg (by omega)]
        exact Or.inr (Or.inr ⟨by rw [hbits, hw8], hw8⟩)
  obtain ⟨m, hm⟩ := hdvd
  have hrows : ∀ r ∈ dataChunks stride buffer, r.length = stride :=
    dataChunks_length_mem stride hpos buffer ⟨m, hm⟩
  have hrowsb : ∀ r ∈ dataChunks stride buffer, ∀ b ∈ r, b < 256 :=
    fun r hr b hbr => hb b (dataChunks_mem_mem stride buffer r hr b hbr)
  have hcount : (dataChunks stride buffer).length = m :=
    dataChunks_count stride hpos buffer m hm
  rw [predict_float] at henc
  simp only [hstride, bind, Except.bind, pure, Except.pure] at henc
  injection henc with henc
  rw [unpredict_float]
  simp only [hstride, hcwp, bind, Except.bind, pure, Except.pure]
  by_cases hpad : cwp = info.chunk_width
  · rw [if_pos hpad]
    have hFS : info.chunk_width * info.bits_per_sample / 8 - stride = 0 := by
      rw [hfull, hstrideEq, hpad]
      exact Nat.sub_self _
    simp only [hFS, List.replicate_zero, List.append_nil, List.map_id'] at henc
    have hFlen : ∀ r ∈ dataChunks stride buffer,
        (forwardDiffRow host 1 info.samples_per_pixel
          (shuffleRow host (depthBytes info.bits_per_sample) r)).length = stride := by
      intro r0 hr0
      rw [forwardDiffRow_length host 1 info.samples_per_pixel (by omega) _
        (one_dvd _) (shuffleRow_lt host _ r0), shuffleRow_length, Nat.mul_comm,
        toElems_length_mul host _ hwpos r0 (by rw [hrows r0 hr0]; exact hWdvd)
          (hrowsb r0 hr0)]
      exact hrows r0 hr0
    have hpoint : ∀ r ∈ dataChunks stride buffer,
        (if info.bits_per_sample = 16 then
          Except.ok (rev_predict_fw host 2
            (forwardDiffRow host 1 info.samples_per_pixel
              (shuffleRow host (depthBytes info.bits_per_sample) r))
            (List.replicate stride 0) info.samples_per_pixel)
        else if info.bits_per_sample = 32 then
          Except.ok (rev_predict_fw host 4
            (forwardDiffRow host 1 info.samples_per_pixel
              (shuffleRow host (depthBytes info.bits_per_sample) r))
            (List.replicate stride 0) info.samples_per_pixel)
        else if info.bits_per_sample = 64 then
          Except.ok (rev_predict_fw host 8
            (forwardDiffRow host 1 info.samples_per_pixel
              (shuffleRow host (depthBytes info.bits_per_sample) r))
            (List.replicate stride 0) info.samples_per_pixel)
        else Except.error (Fail.error
          (AsyncTiffError.general "thou shalt not predict this bit depth")))
        = Except.ok r := by
      intro r hr
      have hdW : depthBytes info.bits_per_sample ∣ r.length := by
        rw [hrows r hr]; exact hWdvd
      have houtl : (List.replicate stride (0 : Nat)).length = r.length := by
        rw [List.length_replicate, hrows r hr]
      rcases hbitcase with ⟨hbv, hwv⟩ | ⟨hbv, hwv⟩ | ⟨hbv, hwv⟩
      · rw [if_pos hbv, hwv,
          rev_predict_fw_roundtrip host 2 info.samples_per_pixel (by omega)
            (by omega) r (List.replicate stride 0) (by rw [hwv] at hdW; exact hdW)
            (hrowsb r hr) houtl]
      · rw [if_neg (by rw [hbv]; omega), if_pos hbv, hwv,
          rev_predict_fw_roundtrip host 4 info.samples_per_pixel (by omega)
            (by omega) r (List.replicate stride 0) (by rw [hwv] at hdW; exact hdW)
            (hrowsb r hr) houtl]
      · rw [if_neg (by rw [hbv]; omega), if_neg (by rw [hbv]; omega),
          if_pos hbv, hwv,
          rev_predict_fw_roundtrip host 8 info.samples_per_pixel (by omega)
            (by omega) r (List.replicate stride 0) (by rw [hwv] at hdW; exact hdW)
            (hrowsb r hr) houtl]
    rw [← henc, dataChunks_flatten_uniform stride hpos _ (by
      intro r' hr'
      obtain ⟨r0, hr0, rfl⟩ := List.mem_map.mp hr'
      exact hFlen r0 hr0)]
    rw [hm, Nat.mul_comm stride m, dataChunks_replicate stride m hpos,
      show m = (dataChunks stride buffer).length from hcount.symm,
      mapM_zip_ok _ _ _ _ hpoint]
    simp only [List.length_map, List.length_replicate, min_self]
    rw [List.drop_eq_nil_of_le (by simp), List.flatten_nil, List.append_nil,
      flatten_dataChunks stride hpos buffer]
  · rw [if_neg hpad]
    have hSF : stride ≤ info.chunk_width * info.bits_per_sample / 8 := by
      rw [hfull, hstrideEq]
      exact Nat.mul_le_mul_right _ hle
    have hFSpos : 0 < info.chunk_width * info.bits_per_sample / 8 := by omega
    have hFdvd : depthBytes info.bits_per_sample
        ∣ info.chunk_width * info.bits_per_sample / 8 := by
      rw [hfull]
      exact ⟨info.chunk_width, by ring⟩
    have hpadlen : ∀ r ∈ dataChunks stride buffer,
        (r ++ List.replicate
          (info.chunk_width * info.bits_per_sample / 8 - stride) 0).length
        = info.chunk_width * info.bits_per_sample / 8 := by
      intro r hr
      rw [List.length_append, List.length_replicate, hrows r hr]
      omega
    have hpadb : ∀ r ∈ dataChunks stride buffer,
        ∀ b ∈ r ++ List.replicate
          (info.chunk_width * info.bits_per_sample / 8 - stride) 0, b < 256 := by
      intro r hr b hbm
      rcases List.mem_append.mp hbm with h | h
      · exact hrowsb r hr b h
      · rw [List.eq_of_mem_replicate h]; omega
    have hFlen : ∀ r ∈ dataChunks stride buffer,
        (forwardDiffRow host 1 info.samples_per_pixel
          (shuffleRow host (depthBytes info.bits_per_sample)
            (r ++ List.replicate
              (info.chunk_width * info.bits_per_sample / 8 - stride) 0))).length
        = info.chunk_width * info.bits_per_sample / 8 := by
      intro r0 hr0
      rw [forwardDiffRow_length host 1 info.samples_per_pixel (by omega) _
        (one_dvd _) (shuffleRow_lt host _ _), shuffleRow_length, Nat.mul_comm,
        toElems_length_mul host _ hwpos _ (by rw [hpadlen r0 hr0]; exact hFdvd)
          (hpadb r0 hr0)]
      exact hpadlen r0 hr0
    have hpoint : ∀ r ∈ dataChunks stride buffer,
        (if info.bits_per_sample = 16 then
          if (List.replicate stride (0 : Nat)).length = stride ∧
              stride ≤ (rev_predict_fw host 2
                (forwardDiffRow host 1 info.samples_per_pixel
                  (shuffleRow host (depthBytes info.bits_per_sample)
                    (r ++ List.replicate
                      (info.chunk_width * info.bits_per_sample / 8 - stride) 0)))
                (List.replicate (info.chunk_width * info.bits_per_sample / 8) 0)
                info.samples_per_pixel).length then
            Except.ok (List.take stride (rev_predict_fw host 2
              (forwardDiffRow host 1 info.samples_per_pixel
                (shuffleRow host (depthBytes info.bits_per_sample)
                  (r ++ List.replicate
                    (info.chunk_width * info.bits_per_sample / 8 - stride) 0)))
              (List.replicate (info.chunk_width * info.bits_per_sample / 8) 0)
              info.samples_per_pixel))
          else Except.error (Fail.panic "copy_from_slice: length mismatch")
        else if info.bits_per_sample = 32 then
          if (List.replicate stride (0 : Nat)).length = stride ∧
              stride ≤ (rev_predict_fw host 4
                (forwardDiffRow host 1 info.samples_per_pixel
                  (shuffleRow host (depthBytes info.bits_per_sample)
                    (r ++ List.replicate
                      (info.chunk_width * info.bits_per_sample / 8 - stride) 0)))
                (List.replicate (info.chunk_width * info.bits_per_sample / 8) 0)
                info.samples_per_pixel).length then
            Except.ok (List.take stride (rev_predict_fw host 4
              (forwardDiffRow host 1 info.samples_per_pixel
                (shuffleRow host (depthBytes info.bits_per_sample)
                  (r ++ List.replicate
                    (info.chunk_width * info.bits_per_sample / 8 - stride) 0)))
              (List.replicate (info.chunk_width * info.bits_per_sample / 8) 0)
              info.samples_per_pixel))
          else Except.error (Fail.panic "copy_from_slice: length mismatch")
        else if info.bits_per_sample = 64 then
          if (List.replicate stride (0 : Nat)).length = stride ∧
              stride ≤ (rev_predict_fw host 8
                (forwardDiffRow host 1 info.samples_per_pixel
                  (shuffleRow host (depthBytes info.bits_per_sample)
                    (r ++ List.replicate
                      (info.chunk_width * info.bits_per_sample / 8 - stride) 0)))
                (List.replicate (info.chunk_width * info.bits_per_sample / 8) 0)
                info.samples_per_pixel).length then
            Except.ok (List.take stride (rev_predict_fw host 8
              (forwardDiffRow host 1 info.samples_per_pixel
                (shuffleRow host (depthBytes info.bits_per_sample)
                  (r ++ List.replicate
                    (info.chunk_width * info.bits_per_sample / 8 - stride) 0)))
              (List.replicate (info.chunk_width * info.bits_per_sample / 8) 0)
              info.samples_per_pixel))
          else Except.error (Fail.panic "copy_from_slice: length mismatch")
        else Except.error (Fail.error
          (AsyncTiffError.general "thou shalt not predict this bit depth")))
        = Except.ok r := by
      intro r hr
      have hdW : depthBytes info.bits_per_sample
          ∣ (r ++ List.replicate
            (info.chunk_width * info.bits_per_sample / 8 - stride) 0).length := by
        rw [hpadlen r hr]; exact hFdvd
      have houtl : (List.replicate
          (info.chunk_width * info.bits_per_sample / 8) (0 : Nat)).length
          = (r ++ List.replicate
            (info.chunk_width * info.bits_per_sample / 8 - stride) 0).length := by
        rw [List.length_replicate, hpadlen r hr]
      have htk : List.take stride (r ++ List.replicate
          (info.chunk_width * info.bits_per_sample / 8 - stride) 0) = r :=
        take_append_len _ _ _ (hrows r hr)
      rcases hbitcase with ⟨hbv, hwv⟩ | ⟨hbv, hwv⟩ | ⟨hbv, hwv⟩
      · rw [if_pos hbv, hwv,
          rev_predict_fw_roundtrip host 2 info.samples_per_pixel (by omega)
            (by omega) _ _ (by rw [hwv] at hdW; exact hdW) (hpadb r hr) houtl,
          if_pos ⟨List.length_replicate _ _, by rw [hpadlen r hr]; omega⟩, htk]
      · rw [if_neg (by rw [hbv]; omega), if_pos hbv, hwv,
          rev_predict_fw_roundtrip host 4 info.samples_per_pixel (by omega)
            (by omega) _ _ (by rw [hwv] at hdW; exact hdW) (hpadb r hr) houtl,
          if_pos ⟨List.length_replicate _ _, by rw [hpadlen r hr]; omega⟩, htk]
      · rw [if_neg (by rw [hbv]; omega), if_neg (by rw [hbv]; omega),
          if_pos hbv, hwv,
          rev_predict_fw_roundtrip host 8 info.samples_per_pixel (by omega)
            (by omega) _ _ (by rw [hwv] at hdW; exact hdW) (hpadb r hr) houtl,
          if_pos ⟨List.length_replicate _ _, by rw [hpadlen r hr]; omega⟩, htk]
    rw [← henc, dataChunks_flatten_uniform
      (info.chunk_width * info.bits_per_sample / 8) hFSpos _ (by
        intro r' hr'
        obtain ⟨r1, hr1, rfl⟩ := List.mem_map.mp hr'
        obtain ⟨r0, hr0, rfl⟩ := List.mem_map.mp hr1
        exact hFlen r0 hr0)]
    rw [List.map_map]
    rw [hm, Nat.mul_comm stride m, dataChunks_replicate stride m hpos,
      show m = (dataChunks stride buffer).length from hcount.symm,
      mapM_zip_ok _ _ _ _ hpoint]
    simp only [List.length_map, List.length_replicate, min_self]
    rw [List.drop_eq_nil_of_le (by simp), List.flatten_nil, List.append_nil,
      flatten_dataChunks stride hpos buffer]

end predictor

/-- C4: predictor inversion.  Part 1 (Horizontal): for every host endianness,
every `PredictorInfo` whose bit depth is a whole number of 8/16/32/64-bit
bytes, every in-range tile column (including the right edge, where the row
stride shrinks), every sample count > 0 and every byte buffer cut into whole
rows, applying the spec's forward horizontal differencing and then the
library's `unpredict_hdiff` returns the original buffer.  Part 2
(FloatingPoint): the same for `predict_float` / `unpredict_float` at bit
depths 16/32/64 with one sample per pixel — the only configuration whose
padded path the code sizes correctly — covering both the aligned branch and
the padded right-edge branch. -/
theorem c4_predictor_roundtrip :
    (∀ (host : Endianness) (info : predictor.PredictorInfo) (tile_x : Nat)
        (buffer enc : List Nat) (stride : Nat),
      info.output_row_stride tile_x = .ok stride → 0 < stride →
      stride ∣ buffer.length →
      info.bits_per_sample = 8 * predictor.depthBytes info.bits_per_sample →
      0 < info.samples_per_pixel →
      (∀ b ∈ buffer, b < 256) →
      predictor.predict_hdiff host buffer info tile_x = .ok enc →
      predictor.unpredict_hdiff host enc info tile_x = .ok buffer) ∧
    (∀ (host : Endianness) (info : predictor.PredictorInfo) (tile_x : Nat)
        (buffer enc : List Nat) (stride cwp : Nat),
      info.chunk_width_pixels tile_x = .ok cwp →
      info.output_row_stride tile_x = .ok stride → 0 < stride →
      stride ∣ buffer.length →
      info.bits_per_sample = 8 * predictor.depthBytes info.bits_per_sample →
      8 < info.bits_per_sample →
      info.samples_per_pixel = 1 →
      cwp ≤ info.chunk_width →
      (∀ b ∈ buffer, b < 256) →
      predictor.predict_float host buffer info tile_x = .ok enc →
      predictor.unpredict_float host enc (List.replicate buffer.length 0)
        info tile_x = .ok buffer) :=
  ⟨fun host info tile_x buffer enc stride h1 h2 h3 h4 h5 h6 h7 =>
      predictor.hdiff_roundtrip host info tile_x buffer enc stride
        h1 h2 h3 h4 h5 h6 h7,
   fun host info tile_x buffer enc stride cwp h1 h2 h3 h4 h5 h6 h7 h8 h9 h10 =>
      predictor.float_roundtrip host info tile_x buffer enc stride cwp
        h1 h2 h3 h4 h5 h6 h7 h8 h9 h10⟩

/-- C4 witness: a byte-depth horizontal roundtrip on a 4×2 chunk and a
16-bit float roundtrip on a padded right-edge strip (width 3 of 4), both at
concrete buffers. -/
theorem c4_predictor_roundtrip_witness :
    predictor.unpredict_hdiff Endianness.littleEndian [1,1,1,1,5,1,1,1]
      ⟨.bigEndian, 4, 2, 4, 2, 8, 1, .uint, .chunky⟩ 0 = .ok [1,2,3,4,5,6,7,8] ∧
    predictor.unpredict_float Endianness.littleEndian [2,2,2,250,1,2,2,251]
      (List.replicate 6 0) ⟨.littleEndian, 3, 1, 4, 1, 16, 1, .ieeefp, .chunky⟩ 0
      = .ok [1,2,3,4,5,6] :=
  ⟨c4_predictor_roundtrip.1 .littleEndian ⟨.bigEndian, 4, 2, 4, 2, 8, 1, .uint, .chunky⟩
      0 [1,2,3,4,5,6,7,8] [1,1,1,1,5,1,1,1] 4 rfl (by decide) (by decide) (by decide)
      (by decide) (by decide) rfl,
   c4_predictor_roundtrip.2 .littleEndian
      ⟨.littleEndian, 3, 1, 4, 1, 16, 1, .ieeefp, .chunky⟩
      0 [1,2,3,4,5,6] [2,2,2,250,1,2,2,251] 6 3 rfl rfl (by decide) (by decide)
      (by decide) (by decide) rfl (by decide) (by decide) rfl⟩

end AsyncTiff
